import Mathlib

/-!
# api-gateway: the routing and forwarding engine of `main.go`

A shallow embedding of `Gateway` (`NewGateway`, `AddRoute`, `ServeHTTP`,
`proxyRequest`, `handleRoot`), of `getEnv` and of `main`, together with the
small part of the Go standard library these functions call, followed by
theorems about them.

Conventions.
* A Go `string` is a sequence of bytes: `GoString = List (Fin 256)`.  `lit`
  turns an ASCII literal of the source into its bytes.
* The objects a handler mutates (the gateway, the response writer, the request)
  and the effects it has on the outside (log records, the hand-over of a request
  to the reverse proxy) are threaded through a `State`.
* `url.Parse` and the clock are not part of the repository; they are the two
  fields of `Env`, over which every theorem is quantified.
-/

namespace ApiGateway

/-! ## Strings -/

abbrev Byte := Fin 256

abbrev GoString := List Byte

/-- Bytes of an ASCII string literal. -/
def lit (s : String) : GoString := s.toList.map (fun c => Fin.ofNat c.toNat)

/-- Go `strings.HasPrefix`: `len(s) >= len(pre) && s[:len(pre)] == pre`. -/
def HasPrefix (s pre : GoString) : Bool :=
  decide (s.length ≥ pre.length) && decide (s.take pre.length = pre)

/-- Go `strings.TrimPrefix`: `s` without the leading `pre` when `s` starts with
it, `s` unchanged otherwise. -/
def TrimPrefix (s pre : GoString) : GoString :=
  if HasPrefix s pre then s.drop pre.length else s

/-- Go `fmt.Sprintf` restricted to the verb `%s`, the only verb the program uses:
every `%s` of the format is replaced by the next argument, every other byte is
copied; the program passes as many arguments as its format has verbs.
(`37` is `%`, `115` is `s`.) -/
def Sprintf : GoString → List GoString → GoString
  | 37 :: 115 :: rest, a :: args => a ++ Sprintf rest args
  | c :: rest, args => c :: Sprintf rest args
  | [], _ => []

/-! ## Data model -/

structure Route where
  Path : GoString
  Target : GoString
deriving DecidableEq, Repr

structure Gateway where
  routes : List Route
deriving DecidableEq, Repr

/-- Go `url.URL`, the fields the gateway reads and writes. -/
structure URL where
  Scheme : GoString
  Host : GoString
  Path : GoString
deriving DecidableEq, Repr

/-- Go `http.Header`, a map from header name to its list of values, kept as an
association list with at most one entry per name.  Go canonicalises the name in
`Set` and `Get`; every name the program passes is already in canonical form. -/
abbrev Header := List (GoString × List GoString)

/-- All values stored under `key` (`h[key]`), empty when the name is absent. -/
def Header.Values (h : Header) (key : GoString) : List GoString :=
  match h.lookup key with
  | some vs => vs
  | none => []

/-- Go `Header.Get`: the first value stored under `key`, `""` when there is none. -/
def Header.Get (h : Header) (key : GoString) : GoString :=
  match Header.Values h key with
  | v :: _ => v
  | [] => []

/-- Go `Header.Set`: the values of `key` become the single value `value`. -/
def Header.Set (h : Header) (key value : GoString) : Header :=
  (key, [value]) :: h.filter (fun kv => kv.1 ≠ key)

/-- Go `Header.Del`: the entry of `key` is removed. -/
def Header.Del (h : Header) (key : GoString) : Header :=
  h.filter (fun kv => kv.1 ≠ key)

/-- Go `http.Request`, the fields the gateway reads and writes.  For a request
received by Go's server the `Host` header line is stored in the field `Host` and
is not an entry of `Header`. -/
structure Request where
  Method : GoString
  URL : URL
  Header : Header
  Host : GoString
  RemoteAddr : GoString
deriving DecidableEq, Repr

/-- Go `http.ResponseWriter` as the server implements it.
`header` is the map returned by `w.Header()`; `sent` is `none` until the status
line is written and then holds the status code with the header map as it was at
that moment (later changes of `header` do not reach the client); `body` is what
has been written. -/
structure ResponseWriter where
  header : Header
  sent : Option (Nat × Header)
  body : GoString
deriving DecidableEq, Repr

/-- A response writer as the server passes it to the handler. -/
def ResponseWriter.fresh : ResponseWriter := ⟨[], none, []⟩

/-- Status code of the response, once written. -/
def ResponseWriter.status (w : ResponseWriter) : Option Nat := w.sent.map Prod.fst

/-- The statement `w.Header().Set(key, value)`. -/
def ResponseWriter.SetHeader (w : ResponseWriter) (key value : GoString) : ResponseWriter :=
  { w with header := Header.Set w.header key value }

/-- Go `w.WriteHeader(code)`: the first call fixes status and headers, a further
call is ignored. -/
def ResponseWriter.WriteHeader (w : ResponseWriter) (code : Nat) : ResponseWriter :=
  match w.sent with
  | none => { w with sent := some (code, w.header) }
  | some _ => w

/-- Go `w.Write(data)`: writes status 200 first when no status was written. -/
def ResponseWriter.Write (w : ResponseWriter) (data : GoString) : ResponseWriter :=
  let w := w.WriteHeader 200
  { w with body := w.body ++ data }

def StatusOK : Nat := 200
def StatusNotFound : Nat := 404
def StatusInternalServerError : Nat := 500

/-- Go `http.Error(w, error, code)`: drops `Content-Length`, sets the plain text
content type and `nosniff`, writes the status and then the message as one line
(`fmt.Fprintln`). -/
def Error (w : ResponseWriter) (error : GoString) (code : Nat) : ResponseWriter :=
  let w := { w with header := Header.Del w.header (lit "Content-Length") }
  let w := w.SetHeader (lit "Content-Type") (lit "text/plain; charset=utf-8")
  let w := w.SetHeader (lit "X-Content-Type-Options") (lit "nosniff")
  let w := w.WriteHeader code
  w.Write (error ++ lit "\n")

/-- Go `http.NotFound(w, r)`: `Error(w, "404 page not found", StatusNotFound)`. -/
def NotFound (w : ResponseWriter) : ResponseWriter :=
  Error w (lit "404 page not found") StatusNotFound

/-- What the program takes from outside the repository.
`Parse` is `url.Parse` (`none` for a returned error); `now` is the value of
`time.Now().Format(time.RFC3339)` when the handler reads the clock. -/
structure Env where
  Parse : GoString → Option URL
  now : GoString

/-- An observable step of a handler, in the order of execution. -/
inductive Event where
  /-- A record written by `log.Printf`: the formatted text handed to the logger,
  which puts its own date and time in front. -/
  | log (line : GoString)
  /-- The call `g.proxyRequest(w, r, route)`. -/
  | proxyRequest (route : Route)
  /-- The call `proxy.ServeHTTP(w, r)` on the reverse proxy built for `target`:
  the request as handed to the proxy transport. -/
  | proxyServe (target : URL) (r : Request)
  /-- The call `g.handleRoot(w, r)`. -/
  | handleRoot
  /-- The call `http.NotFound(w, r)`. -/
  | notFound
deriving DecidableEq, Repr

/-- The objects a handler works on and the trace of what it has done. -/
structure State where
  g : Gateway
  w : ResponseWriter
  r : Request
  trace : List Event
deriving DecidableEq, Repr

def State.emit (s : State) (e : Event) : State :=
  { s with trace := s.trace ++ [e] }

/-- The state in which the server calls the handler for request `r`. -/
def State.start (g : Gateway) (r : Request) : State :=
  ⟨g, ResponseWriter.fresh, r, []⟩

/-! ## The gateway -/

def NewGateway : Gateway := ⟨[]⟩

def Gateway.AddRoute (g : Gateway) (path target : GoString) : Gateway :=
  { g with routes := g.routes ++ [⟨path, target⟩] }

/-- `Gateway.proxyRequest`.  When the target parses, the request is rewritten in
place and handed to the reverse proxy, which from then on owns the response. -/
def proxyRequest (env : Env) (s : State) (route : Route) : State :=
  let s := s.emit (.proxyRequest route)
  match env.Parse route.Target with
  | none =>
    { s with w := Error s.w (lit "Invalid target URL") StatusInternalServerError }
  | some target =>
    let r := s.r
    let r := { r with URL := { r.URL with Host := target.Host } }
    let r := { r with URL := { r.URL with Scheme := target.Scheme } }
    let r := { r with Header := Header.Set r.Header (lit "X-Forwarded-Host")
                                  (Header.Get r.Header (lit "Host")) }
    let r := { r with Host := target.Host }
    let r := { r with URL := { r.URL with Path := TrimPrefix r.URL.Path route.Path } }
    let r := if !HasPrefix r.URL.Path (lit "/") then
        { r with URL := { r.URL with Path := lit "/" ++ r.URL.Path } }
      else r
    { s with r := r, trace := s.trace ++ [.proxyServe target r] }

/-- The loop of `handleRoot` over `g.routes`, `i` being the index of the head of
the remaining routes. -/
def rootLoop : Nat → List Route → GoString → GoString
  | _, [], response => response
  | i, route :: rest, response =>
    let response := if i > 0 then response ++ lit "," else response
    let response := response ++ Sprintf
      (lit "\n        \x7b\n            \"path\": \"%s\",\n            \"target\": \"%s\"\n        \x7d")
      [route.Path, route.Target]
    rootLoop (i + 1) rest response

/-- `Gateway.handleRoot`. -/
def handleRoot (env : Env) (s : State) : State :=
  let s := s.emit .handleRoot
  if s.r.URL.Path = lit "/health" then
    let w := s.w.SetHeader (lit "Content-Type") (lit "application/json")
    let w := w.Write (Sprintf
      (lit "\x7b\"status\":\"healthy\",\"service\":\"api-gateway\",\"timestamp\":\"%s\"\x7d")
      [env.now])
    { s with w := w }
  else
    let w := s.w.SetHeader (lit "Content-Type") (lit "application/json")
    let response :=
      lit "\x7b\n    \"service\": \"API Gateway\",\n    \"version\": \"1.0.0\",\n    \"routes\": ["
    let response := rootLoop 0 s.g.routes response
    let response := response ++ lit "\n    ]\n\x7d"
    { s with w := w.Write response }

/-- The route loop of `ServeHTTP`: the first route whose `Path` the request path
starts with is proxied to and the handler returns (`some`); `none` when the loop
runs to its end. -/
def routeLoop (env : Env) (s : State) : List Route → Option State
  | [] => none
  | route :: rest =>
    if HasPrefix s.r.URL.Path route.Path then some (proxyRequest env s route)
    else routeLoop env s rest

/-- `Gateway.ServeHTTP`. -/
def ServeHTTP (env : Env) (s : State) : State :=
  let w := s.w.SetHeader (lit "Access-Control-Allow-Origin") (lit "*")
  let w := w.SetHeader (lit "Access-Control-Allow-Methods") (lit "GET, POST, PUT, DELETE, OPTIONS")
  let w := w.SetHeader (lit "Access-Control-Allow-Headers") (lit "Content-Type, Authorization")
  let s := { s with w := w }
  if s.r.Method = lit "OPTIONS" then
    { s with w := s.w.WriteHeader StatusOK }
  else
    let s := s.emit (.log (Sprintf (lit "%s %s from %s") [s.r.Method, s.r.URL.Path, s.r.RemoteAddr]))
    match routeLoop env s s.g.routes with
    | some s => s
    | none =>
      if s.r.URL.Path = lit "/" ∨ s.r.URL.Path = lit "/health" then
        handleRoot env s
      else
        { s.emit .notFound with w := NotFound s.w }

/-! ## A concrete environment for evaluating examples -/

/-- Whether `s` has an ASCII control byte; `url.Parse` refuses such a string. -/
def hasCTL (s : GoString) : Bool :=
  s.any (fun b => decide (b.val < 32) || decide (b.val = 127))

/-- Splits `raw` at its first `://` (`58` is `:`, `47` is `/`). -/
def splitScheme : GoString → GoString → Option (GoString × GoString)
  | acc, 58 :: 47 :: 47 :: rest => some (acc.reverse, rest)
  | acc, c :: rest => splitScheme (c :: acc) rest
  | _, [] => none

/-- A parser used to evaluate the handlers on concrete requests.  It agrees with
`url.Parse` on the strings the examples use: a string with a control byte is an
error, `scheme://host/path` is split into its three parts, and a string without
`://` is a relative reference, all of it path. -/
def sampleParse (raw : GoString) : Option URL :=
  if hasCTL raw then none
  else match splitScheme [] raw with
    | some (scheme, rest) =>
      some ⟨scheme, rest.takeWhile (fun b => b ≠ 47), rest.dropWhile (fun b => b ≠ 47)⟩
    | none => some ⟨[], [], raw⟩

def sampleEnv : Env := ⟨sampleParse, lit "2024-05-01T12:00:00Z"⟩

/-- A request as Go's server hands it to the handler: the URL holds the path
only, the `Host` line is in the field `Host`. -/
def sampleRequest (method path : GoString) : Request :=
  ⟨method, ⟨[], [], path⟩, [(lit "Accept", [lit "*/*"])], lit "gateway.example.com",
    lit "10.0.0.7:51234"⟩

def usersRoute : Route := ⟨lit "/api/users", lit "http://users-service:8080"⟩

/-- Two routes of which the first one's path is a prefix of the second one's. -/
def overlapGateway : Gateway :=
  (NewGateway.AddRoute (lit "/api") (lit "http://a-service:8080")).AddRoute
    (lit "/api/users") (lit "http://b-service:8080")

/-- A route whose target holds a line feed, which `url.Parse` refuses. -/
def brokenRoute : Route := ⟨lit "/api/users", lit "http://users\nservice:8080"⟩

/-- The text `handleRoot` writes for one route: the format of its `Sprintf` with
`Path` and `Target` put in as they are. -/
def routeEntry (route : Route) : GoString :=
  lit "\n        \x7b\n            \"path\": \"" ++ (route.Path ++
    (lit "\",\n            \"target\": \"" ++ (route.Target ++ lit "\"\n        \x7d")))

/-- The text `handleRoot` starts the route listing with. -/
def rootHead : GoString :=
  lit "\x7b\n    \"service\": \"API Gateway\",\n    \"version\": \"1.0.0\",\n    \"routes\": ["

/-- The text `handleRoot` ends the route listing with. -/
def rootTail : GoString := lit "\n    ]\n\x7d"

/-! ## Start-up -/

/-- The process environment: the value of each variable that is set. -/
abbrev Environ := GoString → Option GoString

/-- Go `os.Getenv`: the value of the variable, empty when it is not set. -/
def Getenv (environ : Environ) (key : GoString) : GoString :=
  match environ key with
  | some value => value
  | none => []

/-- The function `getEnv` of `main.go`. -/
def getEnv (environ : Environ) (key defaultValue : GoString) : GoString :=
  let value := Getenv environ key
  if value ≠ [] then value else defaultValue

/-- Go `http.Server`, the fields `main` sets; the timeouts in seconds. -/
structure Server where
  Addr : GoString
  Handler : Gateway
  ReadTimeout : Nat
  WriteTimeout : Nat
deriving DecidableEq, Repr

/-- What `main` has done when it calls `ListenAndServe`: the text printed on
standard output, the port read, and the server it starts. -/
structure Startup where
  stdout : GoString
  port : GoString
  server : Server
deriving DecidableEq, Repr

/-- The function `main` of `main.go`, up to the call of `ListenAndServe`. -/
def main (environ : Environ) : Startup :=
  let gateway := NewGateway
  let gateway := gateway.AddRoute (lit "/api/users")
    (getEnv environ (lit "USERS_SERVICE") (lit "http://users-service:8080"))
  let gateway := gateway.AddRoute (lit "/api/posts")
    (getEnv environ (lit "POSTS_SERVICE") (lit "http://posts-service:8080"))
  let gateway := gateway.AddRoute (lit "/api/auth")
    (getEnv environ (lit "AUTH_SERVICE") (lit "http://auth-service:8080"))
  let port := getEnv environ (lit "PORT") (lit "8080")
  let out := Sprintf (lit "API Gateway starting on port %s\n") [port]
  let out := out ++ (lit "Routes configured:" ++ lit "\n")
  let out := gateway.routes.foldl
    (fun out route => out ++ Sprintf (lit "  %s -> %s\n") [route.Path, route.Target]) out
  ⟨out, port, ⟨lit ":" ++ port, gateway, 30, 30⟩⟩

/-- An environment in which no variable is set. -/
def emptyEnviron : Environ := fun _ => none

/-- An environment in which `PORT` is set to the empty string and
`USERS_SERVICE` to `http://10.0.0.5:9000`. -/
def sampleEnviron : Environ := fun key =>
  if key = lit "PORT" then some []
  else if key = lit "USERS_SERVICE" then some (lit "http://10.0.0.5:9000")
  else none

/-- A route whose target has no scheme. -/
def schemelessRoute : Route := ⟨lit "/api/users", lit "users-service"⟩

/-- A route whose target is the empty string. -/
def emptyTargetRoute : Route := ⟨lit "/api/users", lit ""⟩

/-- A route table whose second route has the empty path. -/
def catchAllGateway : Gateway :=
  (NewGateway.AddRoute (lit "/api/users") (lit "http://users-service:8080")).AddRoute
    (lit "") (lit "http://fallback:8080")

/-! ## Reading a trace -/

/-- The routes `proxyRequest` was called with, in order. -/
def State.selected (s : State) : List Route :=
  s.trace.filterMap (fun e => match e with
    | .proxyRequest route => some route
    | _ => none)

/-- The requests handed to the reverse proxy, each with the parsed target of its
proxy, in order. -/
def State.served (s : State) : List (URL × Request) :=
  s.trace.filterMap (fun e => match e with
    | .proxyServe target r => some (target, r)
    | _ => none)

/-- The log records, in order. -/
def State.logged (s : State) : List GoString :=
  s.trace.filterMap (fun e => match e with
    | .log line => some line
    | _ => none)

/-- The three cross-origin headers with the values `ServeHTTP` gives them, each
as the only value of its name. -/
def Header.HasCORS (h : Header) : Prop :=
  Header.Values h (lit "Access-Control-Allow-Origin") = [lit "*"] ∧
  Header.Values h (lit "Access-Control-Allow-Methods") = [lit "GET, POST, PUT, DELETE, OPTIONS"] ∧
  Header.Values h (lit "Access-Control-Allow-Headers") = [lit "Content-Type, Authorization"]

instance (h : Header) : Decidable (Header.HasCORS h) := by
  unfold Header.HasCORS; infer_instance

/-- The writer after the three `Set` calls that open `ServeHTTP`. -/
def corsWriter (w : ResponseWriter) : ResponseWriter :=
  ((w.SetHeader (lit "Access-Control-Allow-Origin") (lit "*")).SetHeader
    (lit "Access-Control-Allow-Methods") (lit "GET, POST, PUT, DELETE, OPTIONS")).SetHeader
    (lit "Access-Control-Allow-Headers") (lit "Content-Type, Authorization")

/-- The record `ServeHTTP` logs for `r`: `<method> <path> from <remote address>`. -/
def logLine (r : Request) : GoString :=
  r.Method ++ (lit " " ++ (r.URL.Path ++ (lit " from " ++ r.RemoteAddr)))

/-- The state of `ServeHTTP` when it enters the route loop. -/
def State.routing (s : State) : State :=
  ⟨s.g, corsWriter s.w, s.r, s.trace ++ [.log (logLine s.r)]⟩

/-- The cross-origin headers are in the header map of `w` and, when the status
line has been written, among the headers written with it. -/
def ResponseWriter.CORS (w : ResponseWriter) : Prop :=
  Header.HasCORS w.header ∧ ∀ code h, w.sent = some (code, h) → Header.HasCORS h

/-! ## Lemmas on the library part -/

theorem HasPrefix_iff (s pre : GoString) : HasPrefix s pre = true ↔ pre <+: s := by
  unfold HasPrefix
  rw [Bool.and_eq_true, decide_eq_true_iff, decide_eq_true_iff]
  constructor
  · rintro ⟨_, h⟩
    exact h ▸ List.take_prefix _ _
  · rintro ⟨t, rfl⟩
    simp

theorem HasPrefix_eq_false_iff (s pre : GoString) : HasPrefix s pre = false ↔ ¬ pre <+: s := by
  rw [← HasPrefix_iff]; simp

theorem TrimPrefix_append (pre rest : GoString) : TrimPrefix (pre ++ rest) pre = rest := by
  have h : HasPrefix (pre ++ rest) pre = true := (HasPrefix_iff _ _).2 (List.prefix_append _ _)
  simp [TrimPrefix, h]

theorem lit_slash : lit "/" = [47] := by decide

theorem lookup_filter_ne (h : Header) (k k1 : GoString) (hne : k1 ≠ k) :
    (h.filter (fun kv => kv.1 ≠ k)).lookup k1 = h.lookup k1 := by
  induction h with
  | nil => rfl
  | cons kv t ih =>
    obtain ⟨a, vs⟩ := kv
    simp only [decide_not] at ih ⊢
    by_cases ha : a = k
    · subst ha
      have h1 : (k1 == a) = false := by simpa using hne
      simp [List.filter, List.lookup, h1, ih]
    · by_cases hk : k1 = a
      · subst hk
        simp [List.filter, List.lookup, ha]
      · have h1 : (k1 == a) = false := by simpa using hk
        simp [List.filter, List.lookup, ha, h1, ih]

theorem Values_Set_self (h : Header) (k v : GoString) :
    Header.Values (Header.Set h k v) k = [v] := by
  simp [Header.Values, Header.Set, List.lookup]

theorem Values_Set_ne (h : Header) (k v k1 : GoString) (hne : k1 ≠ k) :
    Header.Values (Header.Set h k v) k1 = Header.Values h k1 := by
  have h1 : (k1 == k) = false := by simpa using hne
  simp only [Header.Values, Header.Set, List.lookup, h1]
  rw [lookup_filter_ne h k k1 hne]

theorem Values_Del_ne (h : Header) (k k1 : GoString) (hne : k1 ≠ k) :
    Header.Values (Header.Del h k) k1 = Header.Values h k1 := by
  simp only [Header.Values, Header.Del]
  rw [lookup_filter_ne h k k1 hne]

/-! ## Lemmas on the handlers -/

theorem proxyRequest_none (env : Env) (s : State) (route : Route)
    (h : env.Parse route.Target = none) :
    proxyRequest env s route =
      ⟨s.g, Error s.w (lit "Invalid target URL") StatusInternalServerError, s.r,
        s.trace ++ [.proxyRequest route]⟩ := by
  simp [proxyRequest, h, State.emit]

theorem proxyRequest_some (env : Env) (s : State) (route : Route) (target : URL)
    (h : env.Parse route.Target = some target) :
    ∃ out : Request,
      proxyRequest env s route =
        ⟨s.g, s.w, out, s.trace ++ [.proxyRequest route] ++ [.proxyServe target out]⟩ ∧
      out.Method = s.r.Method ∧ out.RemoteAddr = s.r.RemoteAddr ∧
      out.URL.Scheme = target.Scheme ∧ out.URL.Host = target.Host ∧ out.Host = target.Host ∧
      out.Header = Header.Set s.r.Header (lit "X-Forwarded-Host") (Header.Get s.r.Header (lit "Host")) ∧
      out.URL.Path =
        (if HasPrefix (TrimPrefix s.r.URL.Path route.Path) (lit "/") then
          TrimPrefix s.r.URL.Path route.Path
        else lit "/" ++ TrimPrefix s.r.URL.Path route.Path) := by
  by_cases hs : HasPrefix (TrimPrefix s.r.URL.Path route.Path) (lit "/") = true
  · refine ⟨⟨s.r.Method, ⟨target.Scheme, target.Host, TrimPrefix s.r.URL.Path route.Path⟩,
      Header.Set s.r.Header (lit "X-Forwarded-Host") (Header.Get s.r.Header (lit "Host")),
      target.Host, s.r.RemoteAddr⟩, ?_, rfl, rfl, rfl, rfl, rfl, rfl, ?_⟩
    · simp [proxyRequest, h, State.emit, hs]
    · simp [hs]
  · refine ⟨⟨s.r.Method, ⟨target.Scheme, target.Host, lit "/" ++ TrimPrefix s.r.URL.Path route.Path⟩,
      Header.Set s.r.Header (lit "X-Forwarded-Host") (Header.Get s.r.Header (lit "Host")),
      target.Host, s.r.RemoteAddr⟩, ?_, rfl, rfl, rfl, rfl, rfl, rfl, ?_⟩
    · simp [proxyRequest, h, State.emit, hs]
    · simp [hs]

theorem routeLoop_none_iff (env : Env) (s : State) (routes : List Route) :
    routeLoop env s routes = none ↔ ∀ route ∈ routes, ¬ route.Path <+: s.r.URL.Path := by
  induction routes with
  | nil => simp [routeLoop]
  | cons rt rest ih =>
    by_cases hp : HasPrefix s.r.URL.Path rt.Path = true
    · have := (HasPrefix_iff _ _).1 hp
      simp [routeLoop, hp, this]
    · have hn : ¬ rt.Path <+: s.r.URL.Path := fun h => hp ((HasPrefix_iff _ _).2 h)
      simp [routeLoop, hp, hn, ih]

theorem routeLoop_split (env : Env) (s : State) (pre post : List Route) (route : Route)
    (hpre : ∀ x ∈ pre, ¬ x.Path <+: s.r.URL.Path) (hroute : route.Path <+: s.r.URL.Path) :
    routeLoop env s (pre ++ route :: post) = some (proxyRequest env s route) := by
  induction pre with
  | nil => simp [routeLoop, (HasPrefix_iff _ _).2 hroute]
  | cons x xs ih =>
    have hx : HasPrefix s.r.URL.Path x.Path = false :=
      (HasPrefix_eq_false_iff _ _).2 (hpre x (List.mem_cons_self _ _))
    simp only [List.cons_append, routeLoop, hx]
    exact ih (fun y hy => hpre y (List.mem_cons_of_mem _ hy))

theorem Sprintf_log (a b c : GoString) :
    Sprintf (lit "%s %s from %s") [a, b, c] = a ++ (lit " " ++ (b ++ (lit " from " ++ c))) := by
  simp [Sprintf, lit]

theorem ServeHTTP_options (env : Env) (s : State) (hm : s.r.Method = lit "OPTIONS") :
    ServeHTTP env s = ⟨s.g, (corsWriter s.w).WriteHeader StatusOK, s.r, s.trace⟩ := by
  simp [ServeHTTP, hm, corsWriter]

theorem ServeHTTP_routing (env : Env) (s : State) (hm : s.r.Method ≠ lit "OPTIONS") :
    ServeHTTP env s =
      match routeLoop env s.routing s.g.routes with
      | some s1 => s1
      | none =>
        if s.r.URL.Path = lit "/" ∨ s.r.URL.Path = lit "/health" then handleRoot env s.routing
        else ⟨s.g, NotFound (corsWriter s.w), s.r,
          s.trace ++ [.log (logLine s.r)] ++ [.notFound]⟩ := by
  simp only [ServeHTTP, hm, if_false, Sprintf_log]
  rfl

theorem ServeHTTP_match (env : Env) (s : State) (hm : s.r.Method ≠ lit "OPTIONS")
    (pre post : List Route) (route : Route) (hroutes : s.g.routes = pre ++ route :: post)
    (hpre : ∀ x ∈ pre, ¬ x.Path <+: s.r.URL.Path) (hroute : route.Path <+: s.r.URL.Path) :
    ServeHTTP env s = proxyRequest env s.routing route := by
  rw [ServeHTTP_routing env s hm, hroutes, routeLoop_split env s.routing pre post route hpre hroute]

theorem ServeHTTP_nomatch (env : Env) (s : State) (hm : s.r.Method ≠ lit "OPTIONS")
    (hno : ∀ route ∈ s.g.routes, ¬ route.Path <+: s.r.URL.Path) :
    ServeHTTP env s =
      if s.r.URL.Path = lit "/" ∨ s.r.URL.Path = lit "/health" then handleRoot env s.routing
      else ⟨s.g, NotFound (corsWriter s.w), s.r,
        s.trace ++ [.log (logLine s.r)] ++ [.notFound]⟩ := by
  rw [ServeHTTP_routing env s hm, (routeLoop_none_iff env s.routing s.g.routes).2 hno]

theorem routes_split_at (routes : List Route) (i : Nat) (hi : i < routes.length) :
    routes = routes.take i ++ routes[i] :: routes.drop (i + 1) := by
  rw [← List.drop_eq_getElem_cons hi, List.take_append_drop]

/-! ## Path rewriting (C1) -/

theorem slash_prefix_rewritten (rest : GoString) :
    lit "/" <+: (if rest = [] ∨ ¬ lit "/" <+: rest then lit "/" ++ rest else rest) := by
  by_cases hr : lit "/" <+: rest
  · have hne : rest ≠ [] := by
      rintro rfl
      simp [lit_slash] at hr
    simp [hne, hr]
  · simp [hr]

/-- C1: when the request path is `route.Path ++ rest`, the requests
`proxyRequest` hands to the proxy are: none when `url.Parse` refuses the target,
and otherwise exactly one; the path of the request handed over is `rest`, with
`/` put in front when `rest` is empty or does not start with `/`, so that it
starts with `/` in every case. -/
theorem proxyRequest_strips_route_path (env : Env) (s : State) (route : Route)
    (rest : GoString) (hpath : s.r.URL.Path = route.Path ++ rest) :
    ∃ out : Request,
      (proxyRequest env s route).served
        = s.served ++ (env.Parse route.Target).toList.map (fun target => (target, out)) ∧
      out.URL.Path = (if rest = [] ∨ ¬ lit "/" <+: rest then lit "/" ++ rest else rest) ∧
      lit "/" <+: out.URL.Path := by
  cases hparse : env.Parse route.Target with
  | none =>
    refine ⟨⟨s.r.Method, ⟨[], [],
      if rest = [] ∨ ¬ lit "/" <+: rest then lit "/" ++ rest else rest⟩,
      s.r.Header, s.r.Host, s.r.RemoteAddr⟩, ?_, rfl, slash_prefix_rewritten rest⟩
    simp [proxyRequest_none env s route hparse, State.served, List.filterMap_append]
  | some target =>
    obtain ⟨out, hout, -, -, -, -, -, -, hp⟩ := proxyRequest_some env s route target hparse
    rw [hpath, TrimPrefix_append] at hp
    have hpath1 : out.URL.Path =
        (if rest = [] ∨ ¬ lit "/" <+: rest then lit "/" ++ rest else rest) := by
      by_cases hr : lit "/" <+: rest
      · have hne : rest ≠ [] := by
          rintro rfl
          simp [lit_slash] at hr
        simp [hp, (HasPrefix_iff _ _).2 hr, hr, hne]
      · have : HasPrefix rest (lit "/") = false := (HasPrefix_eq_false_iff _ _).2 hr
        simp [hp, this, hr]
    refine ⟨out, ?_, hpath1, ?_⟩
    · simp [hout, State.served, List.filterMap_append]
    · rw [hpath1]
      exact slash_prefix_rewritten rest

/-- Two instances of `proxyRequest_strips_route_path`: route `/api/users` with
path `/api/users/42` hands over `/42`, and with path `/api/users` hands over `/`. -/
theorem proxyRequest_strips_route_path_witness :
    ((State.start ⟨[usersRoute]⟩ (sampleRequest (lit "GET") (lit "/api/users/42"))).r.URL.Path
        = usersRoute.Path ++ lit "/42" ∧
      ∃ out : Request,
        (proxyRequest sampleEnv
          (State.start ⟨[usersRoute]⟩ (sampleRequest (lit "GET") (lit "/api/users/42")))
          usersRoute).served = [(⟨lit "http", lit "users-service:8080", []⟩, out)] ∧
        out.URL.Path = lit "/42") ∧
    ((State.start ⟨[usersRoute]⟩ (sampleRequest (lit "GET") (lit "/api/users"))).r.URL.Path
        = usersRoute.Path ++ lit "" ∧
      ∃ out : Request,
        (proxyRequest sampleEnv
          (State.start ⟨[usersRoute]⟩ (sampleRequest (lit "GET") (lit "/api/users")))
          usersRoute).served = [(⟨lit "http", lit "users-service:8080", []⟩, out)] ∧
        out.URL.Path = lit "/") := by
  refine ⟨⟨by decide, ?_⟩, ⟨by decide, ?_⟩⟩
  · obtain ⟨out, h1, h2, -⟩ := proxyRequest_strips_route_path sampleEnv
      (State.start ⟨[usersRoute]⟩ (sampleRequest (lit "GET") (lit "/api/users/42")))
      usersRoute (lit "/42") (by decide)
    exact ⟨out, h1, h2.trans (by decide)⟩
  · obtain ⟨out, h1, h2, -⟩ := proxyRequest_strips_route_path sampleEnv
      (State.start ⟨[usersRoute]⟩ (sampleRequest (lit "GET") (lit "/api/users")))
      usersRoute (lit "") (by decide)
    exact ⟨out, h1, h2.trans (by decide)⟩

/-! ## Route selection (C2) -/

theorem selected_proxyRequest (env : Env) (s : State) (route : Route) :
    (proxyRequest env s route).selected = s.selected ++ [route] := by
  cases h : env.Parse route.Target with
  | none => simp [proxyRequest_none env s route h, State.selected, List.filterMap_append]
  | some target =>
    obtain ⟨out, hout, -⟩ := proxyRequest_some env s route target h
    simp [hout, State.selected, List.filterMap_append]

theorem served_proxyRequest (env : Env) (s : State) (route : Route) :
    (proxyRequest env s route).served.map Prod.fst =
      s.served.map Prod.fst ++ (env.Parse route.Target).toList := by
  cases h : env.Parse route.Target with
  | none => simp [proxyRequest_none env s route h, State.served, List.filterMap_append]
  | some target =>
    obtain ⟨out, hout, -⟩ := proxyRequest_some env s route target h
    simp [hout, State.served, List.filterMap_append]

theorem trace_handleRoot (env : Env) (s : State) :
    (handleRoot env s).trace = s.trace ++ [.handleRoot] := by
  simp only [handleRoot, State.emit]
  split <;> rfl

theorem selected_handleRoot (env : Env) (s : State) :
    (handleRoot env s).selected = s.selected := by
  simp [State.selected, trace_handleRoot, List.filterMap_append]

/-- C2: for a request whose method is not OPTIONS, the route `proxyRequest` is
called with is the one of smallest index whose `Path` is a prefix of the request
path, whatever routes follow it, and the request is handed to the proxy built
for that route's target when the target parses; no route is selected exactly
when no registered `Path` is a prefix of the request path. -/
theorem ServeHTTP_first_match_wins (env : Env) (g : Gateway) (r : Request)
    (hm : r.Method ≠ lit "OPTIONS") :
    (∀ (i : Nat) (hi : i < g.routes.length),
        g.routes[i].Path <+: r.URL.Path →
        (∀ (j : Nat) (hj : j < g.routes.length), j < i → ¬ g.routes[j].Path <+: r.URL.Path) →
        (ServeHTTP env (State.start g r)).selected = [g.routes[i]] ∧
        (ServeHTTP env (State.start g r)).served.map Prod.fst
          = (env.Parse g.routes[i].Target).toList) ∧
    ((ServeHTTP env (State.start g r)).selected = [] ↔
      ∀ route ∈ g.routes, ¬ route.Path <+: r.URL.Path) := by
  constructor
  · intro i hi hmatch hfirst
    have hpre : ∀ x ∈ g.routes.take i, ¬ x.Path <+: (State.start g r).r.URL.Path := by
      intro x hx
      obtain ⟨j, hj, rfl⟩ := List.mem_iff_getElem.1 hx
      have hji : j < i := by
        have := hj
        simp only [List.length_take] at this
        omega
      rw [List.getElem_take]
      exact hfirst j (by omega) hji
    have hserve := ServeHTTP_match env (State.start g r) hm (g.routes.take i)
      (g.routes.drop (i + 1)) g.routes[i] (routes_split_at g.routes i hi) hpre hmatch
    rw [hserve, selected_proxyRequest, served_proxyRequest]
    simp [State.selected, State.served, State.routing, State.start]
  · constructor
    · intro hsel route hroute hmatch
      obtain ⟨i, hi, rfl⟩ := List.mem_iff_getElem.1 hroute
      have hex : ∃ k, ∃ hk : k < g.routes.length, g.routes[k].Path <+: r.URL.Path :=
        ⟨i, hi, hmatch⟩
      classical
      let k := Nat.find hex
      obtain ⟨hk, hkm⟩ := Nat.find_spec hex
      have hmin : ∀ (j : Nat) (hj : j < g.routes.length), j < k →
          ¬ g.routes[j].Path <+: r.URL.Path := by
        intro j hj hjk hjm
        exact Nat.find_min hex hjk ⟨hj, hjm⟩
      have hpre : ∀ x ∈ g.routes.take k, ¬ x.Path <+: (State.start g r).r.URL.Path := by
        intro x hx
        obtain ⟨j, hj, rfl⟩ := List.mem_iff_getElem.1 hx
        have hjk : j < k := by
          have := hj
          simp only [List.length_take] at this
          omega
        rw [List.getElem_take]
        exact hmin j (by omega) hjk
      have hserve := ServeHTTP_match env (State.start g r) hm (g.routes.take k)
        (g.routes.drop (k + 1)) g.routes[k] (routes_split_at g.routes k hk) hpre hkm
      rw [hserve, selected_proxyRequest] at hsel
      simp at hsel
    · intro hno
      rw [ServeHTTP_nomatch env (State.start g r) hm hno]
      split
      · rw [selected_handleRoot]
        simp [State.selected, State.routing, State.start]
      · simp [State.selected, State.start]

/-- An instance of `ServeHTTP_first_match_wins`: with routes `/api` to A and
`/api/users` to B, the request `GET /api/users/1` selects the route to A and is
handed to A's proxy with path `/users/1`; the comparison is of bytes, so
`GET /API/users/1` selects no route. -/
theorem ServeHTTP_first_match_wins_witness :
    (sampleRequest (lit "GET") (lit "/api/users/1")).Method ≠ lit "OPTIONS" ∧
    (ServeHTTP sampleEnv
      (State.start overlapGateway (sampleRequest (lit "GET") (lit "/api/users/1")))).selected
      = [⟨lit "/api", lit "http://a-service:8080"⟩] ∧
    (ServeHTTP sampleEnv
      (State.start overlapGateway (sampleRequest (lit "GET") (lit "/api/users/1")))).served.map
        (fun p => (p.1.Host, p.2.URL.Path))
      = [(lit "a-service:8080", lit "/users/1")] ∧
    (ServeHTTP sampleEnv
      (State.start overlapGateway (sampleRequest (lit "GET") (lit "/API/users/1")))).selected
      = [] :=
  ⟨by decide,
    ((ServeHTTP_first_match_wins sampleEnv overlapGateway
      (sampleRequest (lit "GET") (lit "/api/users/1")) (by decide)).1 0 (by decide) (by decide)
      (fun j _ hj => absurd hj (Nat.not_lt_zero j))).1,
    by decide, by decide⟩

/-! ## Cross-origin headers (C3) -/

theorem HasCORS_Set (h : Header) (k v : GoString) (hc : Header.HasCORS h)
    (h1 : lit "Access-Control-Allow-Origin" ≠ k) (h2 : lit "Access-Control-Allow-Methods" ≠ k)
    (h3 : lit "Access-Control-Allow-Headers" ≠ k) : Header.HasCORS (Header.Set h k v) := by
  obtain ⟨c1, c2, c3⟩ := hc
  exact ⟨by rw [Values_Set_ne _ _ _ _ h1, c1], by rw [Values_Set_ne _ _ _ _ h2, c2],
    by rw [Values_Set_ne _ _ _ _ h3, c3]⟩

theorem HasCORS_Del (h : Header) (k : GoString) (hc : Header.HasCORS h)
    (h1 : lit "Access-Control-Allow-Origin" ≠ k) (h2 : lit "Access-Control-Allow-Methods" ≠ k)
    (h3 : lit "Access-Control-Allow-Headers" ≠ k) : Header.HasCORS (Header.Del h k) := by
  obtain ⟨c1, c2, c3⟩ := hc
  exact ⟨by rw [Values_Del_ne _ _ _ h1, c1], by rw [Values_Del_ne _ _ _ h2, c2],
    by rw [Values_Del_ne _ _ _ h3, c3]⟩

theorem HasCORS_corsWriter (w : ResponseWriter) : Header.HasCORS (corsWriter w).header := by
  refine ⟨?_, ?_, ?_⟩
  · simp only [corsWriter, ResponseWriter.SetHeader]
    rw [Values_Set_ne _ _ _ _ (by decide), Values_Set_ne _ _ _ _ (by decide), Values_Set_self]
  · simp only [corsWriter, ResponseWriter.SetHeader]
    rw [Values_Set_ne _ _ _ _ (by decide), Values_Set_self]
  · simp only [corsWriter, ResponseWriter.SetHeader]
    rw [Values_Set_self]

theorem CORS_corsWriter (w : ResponseWriter) (hw : w.sent = none) : (corsWriter w).CORS := by
  refine ⟨HasCORS_corsWriter w, ?_⟩
  intro code h hs
  simp [corsWriter, ResponseWriter.SetHeader, hw] at hs

theorem CORS_WriteHeader (w : ResponseWriter) (code : Nat) (hw : w.CORS) :
    (w.WriteHeader code).CORS := by
  unfold ResponseWriter.WriteHeader
  cases hs : w.sent with
  | none =>
    refine ⟨hw.1, ?_⟩
    intro c h hsent
    simp only [Option.some.injEq, Prod.mk.injEq] at hsent
    exact hsent.2 ▸ hw.1
  | some p => exact hw

theorem CORS_Write (w : ResponseWriter) (data : GoString) (hw : w.CORS) :
    (w.Write data).CORS := by
  have h := CORS_WriteHeader w 200 hw
  exact ⟨h.1, h.2⟩

theorem CORS_SetHeader (w : ResponseWriter) (k v : GoString) (hw : w.CORS)
    (h1 : lit "Access-Control-Allow-Origin" ≠ k) (h2 : lit "Access-Control-Allow-Methods" ≠ k)
    (h3 : lit "Access-Control-Allow-Headers" ≠ k) : (w.SetHeader k v).CORS :=
  ⟨HasCORS_Set _ _ _ hw.1 h1 h2 h3, hw.2⟩

theorem CORS_Error (w : ResponseWriter) (msg : GoString) (code : Nat) (hw : w.CORS) :
    (Error w msg code).CORS := by
  unfold Error
  apply CORS_Write
  apply CORS_WriteHeader
  apply CORS_SetHeader _ _ _ _ (by decide) (by decide) (by decide)
  apply CORS_SetHeader _ _ _ _ (by decide) (by decide) (by decide)
  exact ⟨HasCORS_Del _ _ hw.1 (by decide) (by decide) (by decide), hw.2⟩

theorem CORS_proxyRequest (env : Env) (s : State) (route : Route) (hw : s.w.CORS) :
    (proxyRequest env s route).w.CORS := by
  cases h : env.Parse route.Target with
  | none =>
    rw [proxyRequest_none env s route h]
    exact CORS_Error _ _ _ hw
  | some target =>
    obtain ⟨out, hout, -⟩ := proxyRequest_some env s route target h
    rw [hout]
    exact hw

theorem CORS_handleRoot (env : Env) (s : State) (hw : s.w.CORS) :
    (handleRoot env s).w.CORS := by
  simp only [handleRoot, State.emit]
  split
  · exact CORS_Write _ _ (CORS_SetHeader _ _ _ hw (by decide) (by decide) (by decide))
  · exact CORS_Write _ _ (CORS_SetHeader _ _ _ hw (by decide) (by decide) (by decide))

theorem CORS_routeLoop (env : Env) (s s1 : State) (routes : List Route) (hw : s.w.CORS)
    (h : routeLoop env s routes = some s1) : s1.w.CORS := by
  induction routes with
  | nil => simp [routeLoop] at h
  | cons rt rest ih =>
    unfold routeLoop at h
    split at h
    · simp only [Option.some.injEq] at h
      exact h ▸ CORS_proxyRequest env s rt hw
    · exact ih h

theorem CORS_ServeHTTP (env : Env) (s : State) (hw : s.w.sent = none) :
    (ServeHTTP env s).w.CORS := by
  have hc : (corsWriter s.w).CORS := CORS_corsWriter s.w hw
  by_cases hm : s.r.Method = lit "OPTIONS"
  · rw [ServeHTTP_options env s hm]
    exact CORS_WriteHeader _ _ hc
  · rw [ServeHTTP_routing env s hm]
    cases hl : routeLoop env s.routing s.g.routes with
    | some s1 => exact CORS_routeLoop env s.routing s1 s.g.routes hc hl
    | none =>
      simp only
      split
      · exact CORS_handleRoot env s.routing hc
      · exact CORS_Error _ _ _ hc

/-- C3: for every route table and every request, on whichever branch `ServeHTTP`
ends (preflight, hand-over to the proxy, status responder, 404, 500), the header
map of the response holds `Access-Control-Allow-Origin: *`,
`Access-Control-Allow-Methods: GET, POST, PUT, DELETE, OPTIONS` and
`Access-Control-Allow-Headers: Content-Type, Authorization`, each as the only
value of its name, and whenever the gateway itself has written the status line
the headers written with it hold the same three. -/
theorem ServeHTTP_sets_cors_headers (env : Env) (g : Gateway) (r : Request) :
    Header.HasCORS (ServeHTTP env (State.start g r)).w.header ∧
    ∀ code h, (ServeHTTP env (State.start g r)).w.sent = some (code, h) → Header.HasCORS h :=
  CORS_ServeHTTP env (State.start g r) rfl

/-! ## Not found, invalid target, preflight (C4, C5, C6) -/

theorem corsWriter_unsent (w : ResponseWriter) (hw : w.sent = none) :
    (corsWriter w).sent = none ∧ (corsWriter w).body = w.body := by
  simp [corsWriter, ResponseWriter.SetHeader, hw]

theorem Error_unsent (w : ResponseWriter) (msg : GoString) (code : Nat) (hw : w.sent = none) :
    (Error w msg code).status = some code ∧
    (Error w msg code).body = w.body ++ (msg ++ lit "\n") := by
  simp [Error, ResponseWriter.SetHeader, ResponseWriter.WriteHeader, ResponseWriter.Write,
    ResponseWriter.status, hw]

/-- C4: a request whose method is not OPTIONS, whose path has no registered
route `Path` as a prefix and is neither `/` nor `/health`, is answered with
status 404; nothing is handed to the proxy, `proxyRequest` is not called and
`handleRoot` is not called: after the log record the only step is
`http.NotFound`. -/
theorem ServeHTTP_not_found (env : Env) (g : Gateway) (r : Request)
    (hm : r.Method ≠ lit "OPTIONS")
    (hno : ∀ route ∈ g.routes, ¬ route.Path <+: r.URL.Path)
    (hroot : r.URL.Path ≠ lit "/") (hhealth : r.URL.Path ≠ lit "/health") :
    (ServeHTTP env (State.start g r)).w.status = some 404 ∧
    (ServeHTTP env (State.start g r)).served = [] ∧
    (ServeHTTP env (State.start g r)).selected = [] ∧
    Event.handleRoot ∉ (ServeHTTP env (State.start g r)).trace ∧
    (ServeHTTP env (State.start g r)).trace = [.log (logLine r), .notFound] := by
  have h := ServeHTTP_nomatch env (State.start g r) hm hno
  have hne : ¬ ((State.start g r).r.URL.Path = lit "/" ∨
      (State.start g r).r.URL.Path = lit "/health") := by
    rintro (h1 | h1)
    · exact hroot h1
    · exact hhealth h1
  rw [if_neg hne] at h
  rw [h]
  refine ⟨?_, ?_, ?_, ?_, ?_⟩
  · exact (Error_unsent _ _ _ (corsWriter_unsent _ rfl).1).1
  · simp [State.served, State.start]
  · simp [State.selected, State.start]
  · simp [State.start]
  · simp [State.start]

/-- An instance of `ServeHTTP_not_found`: `GET /nothing` against the route
`/api/users`. -/
theorem ServeHTTP_not_found_witness :
    (sampleRequest (lit "GET") (lit "/nothing")).Method ≠ lit "OPTIONS" ∧
    (∀ route ∈ (Gateway.mk [usersRoute]).routes,
      ¬ route.Path <+: (sampleRequest (lit "GET") (lit "/nothing")).URL.Path) ∧
    (ServeHTTP sampleEnv
      (State.start ⟨[usersRoute]⟩ (sampleRequest (lit "GET") (lit "/nothing")))).w.status
      = some 404 ∧
    (ServeHTTP sampleEnv
      (State.start ⟨[usersRoute]⟩ (sampleRequest (lit "GET") (lit "/nothing")))).served = [] :=
  ⟨by decide, by decide,
    (ServeHTTP_not_found sampleEnv ⟨[usersRoute]⟩ (sampleRequest (lit "GET") (lit "/nothing"))
      (by decide) (by decide) (by decide) (by decide)).1,
    (ServeHTTP_not_found sampleEnv ⟨[usersRoute]⟩ (sampleRequest (lit "GET") (lit "/nothing"))
      (by decide) (by decide) (by decide) (by decide)).2.1⟩

/-- C5, amended: when the route a non-OPTIONS request is matched to (the first
one in table order whose `Path` is a prefix of the request path) has a `Target`
that `url.Parse` refuses, the response has status 500 and its body is
`Invalid target URL` followed by a line feed (`http.Error` writes the message as
one line); nothing is handed to the proxy and the request is left as
received. -/
theorem ServeHTTP_invalid_target (env : Env) (g : Gateway) (r : Request)
    (pre post : List Route) (route : Route)
    (hm : r.Method ≠ lit "OPTIONS")
    (hroutes : g.routes = pre ++ route :: post)
    (hpre : ∀ x ∈ pre, ¬ x.Path <+: r.URL.Path)
    (hroute : route.Path <+: r.URL.Path)
    (hparse : env.Parse route.Target = none) :
    (ServeHTTP env (State.start g r)).w.status = some 500 ∧
    (ServeHTTP env (State.start g r)).w.body = lit "Invalid target URL" ++ lit "\n" ∧
    (ServeHTTP env (State.start g r)).served = [] ∧
    (ServeHTTP env (State.start g r)).r = r := by
  rw [ServeHTTP_match env (State.start g r) hm pre post route hroutes hpre hroute,
    proxyRequest_none env _ route hparse]
  refine ⟨?_, ?_, ?_, ?_⟩
  · exact (Error_unsent _ _ _ (corsWriter_unsent _ rfl).1).1
  · have h := (Error_unsent (corsWriter (State.start g r).w) (lit "Invalid target URL")
      StatusInternalServerError (corsWriter_unsent _ rfl).1).2
    rw [(corsWriter_unsent _ rfl).2] at h
    simpa [State.routing, State.start, ResponseWriter.fresh] using h
  · simp [State.served, State.routing, State.start]
  · rfl

/-- An instance of `ServeHTTP_invalid_target`: `GET /api/users/42` against a
route whose target holds a control character. -/
theorem ServeHTTP_invalid_target_witness :
    (sampleRequest (lit "GET") (lit "/api/users/42")).Method ≠ lit "OPTIONS" ∧
    brokenRoute.Path <+: (sampleRequest (lit "GET") (lit "/api/users/42")).URL.Path ∧
    sampleEnv.Parse brokenRoute.Target = none ∧
    (ServeHTTP sampleEnv
      (State.start ⟨[brokenRoute]⟩ (sampleRequest (lit "GET") (lit "/api/users/42")))).w.status
      = some 500 ∧
    (ServeHTTP sampleEnv
      (State.start ⟨[brokenRoute]⟩ (sampleRequest (lit "GET") (lit "/api/users/42")))).served
      = [] :=
  ⟨by decide, by decide, by decide,
    (ServeHTTP_invalid_target sampleEnv ⟨[brokenRoute]⟩
      (sampleRequest (lit "GET") (lit "/api/users/42")) [] [] brokenRoute
      (by decide) rfl (by decide) (by decide) (by decide)).1,
    (ServeHTTP_invalid_target sampleEnv ⟨[brokenRoute]⟩
      (sampleRequest (lit "GET") (lit "/api/users/42")) [] [] brokenRoute
      (by decide) rfl (by decide) (by decide) (by decide)).2.2.1⟩

/-- C5 as stated fails on the body: for `GET /api/users/42` against a route whose
target `url.Parse` refuses, the status is 500 and nothing is handed to the
proxy, but the body is the 19 bytes `Invalid target URL` and line feed, not the
18 bytes `Invalid target URL`. -/
theorem ServeHTTP_invalid_target_body_not_bare_message :
    (sampleRequest (lit "GET") (lit "/api/users/42")).Method ≠ lit "OPTIONS" ∧
    brokenRoute.Path <+: (sampleRequest (lit "GET") (lit "/api/users/42")).URL.Path ∧
    sampleEnv.Parse brokenRoute.Target = none ∧
    (ServeHTTP sampleEnv
      (State.start ⟨[brokenRoute]⟩ (sampleRequest (lit "GET") (lit "/api/users/42")))).w.body
      = lit "Invalid target URL\n" ∧
    ¬ ((ServeHTTP sampleEnv
        (State.start ⟨[brokenRoute]⟩ (sampleRequest (lit "GET") (lit "/api/users/42")))).w.status
        = some 500 ∧
      (ServeHTTP sampleEnv
        (State.start ⟨[brokenRoute]⟩ (sampleRequest (lit "GET") (lit "/api/users/42")))).w.body
        = lit "Invalid target URL" ∧
      (ServeHTTP sampleEnv
        (State.start ⟨[brokenRoute]⟩ (sampleRequest (lit "GET") (lit "/api/users/42")))).served
        = []) := by
  decide

/-- C6: a request with method OPTIONS, whatever its path and whatever the route
table, gets status 200 and an empty body, and `ServeHTTP` does nothing else: no
log record, no call of `proxyRequest`, no hand-over to a proxy, no call of
`handleRoot`. -/
theorem ServeHTTP_preflight (env : Env) (g : Gateway) (r : Request)
    (hm : r.Method = lit "OPTIONS") :
    (ServeHTTP env (State.start g r)).w.status = some 200 ∧
    (ServeHTTP env (State.start g r)).w.body = [] ∧
    (ServeHTTP env (State.start g r)).trace = [] ∧
    (ServeHTTP env (State.start g r)).logged = [] ∧
    (ServeHTTP env (State.start g r)).selected = [] ∧
    (ServeHTTP env (State.start g r)).served = [] ∧
    Event.handleRoot ∉ (ServeHTTP env (State.start g r)).trace := by
  rw [ServeHTTP_options env (State.start g r) hm]
  simp [State.start, State.logged, State.selected, State.served, ResponseWriter.fresh,
    ResponseWriter.WriteHeader, ResponseWriter.status, corsWriter, ResponseWriter.SetHeader,
    StatusOK]

/-- Instances of `ServeHTTP_preflight`: OPTIONS on a path with a registered
route, and on `/health`. -/
theorem ServeHTTP_preflight_witness :
    (sampleRequest (lit "OPTIONS") (lit "/api/users/42")).Method = lit "OPTIONS" ∧
    (ServeHTTP sampleEnv
      (State.start ⟨[usersRoute]⟩ (sampleRequest (lit "OPTIONS") (lit "/api/users/42")))).w.status
      = some 200 ∧
    (ServeHTTP sampleEnv
      (State.start ⟨[usersRoute]⟩ (sampleRequest (lit "OPTIONS") (lit "/health")))).trace = [] :=
  ⟨by decide,
    (ServeHTTP_preflight sampleEnv ⟨[usersRoute]⟩
      (sampleRequest (lit "OPTIONS") (lit "/api/users/42")) (by decide)).1,
    (ServeHTTP_preflight sampleEnv ⟨[usersRoute]⟩
      (sampleRequest (lit "OPTIONS") (lit "/health")) (by decide)).2.2.1⟩

/-! ## The forwarded host (C7) -/

theorem proxyRequest_forwarded_host (env : Env) (s : State) (route : Route) (target : URL)
    (h : env.Parse route.Target = some target) :
    ∃ out : Request,
      (proxyRequest env s route).served = s.served ++ [(target, out)] ∧
      Header.Values out.Header (lit "X-Forwarded-Host") = [Header.Get s.r.Header (lit "Host")] := by
  obtain ⟨out, hout, -, -, -, -, -, hh, -⟩ := proxyRequest_some env s route target h
  refine ⟨out, ?_, ?_⟩
  · simp [hout, State.served, List.filterMap_append]
  · rw [hh, Values_Set_self]

/-- C7, evaluated: the request `GET /api/users/42` arrives with the host
`gateway.example.com` in `Request.Host` and, as for every request Go's server
receives, without a `Host` entry in `Request.Header`; it is handed to the proxy
of `/api/users` with `X-Forwarded-Host` set to the empty string, not to the
host the client addressed. -/
theorem ServeHTTP_forwarded_host_is_empty :
    (sampleRequest (lit "GET") (lit "/api/users/42")).Host = lit "gateway.example.com" ∧
    Header.Values (sampleRequest (lit "GET") (lit "/api/users/42")).Header (lit "Host") = [] ∧
    (ServeHTTP sampleEnv
      (State.start ⟨[usersRoute]⟩ (sampleRequest (lit "GET") (lit "/api/users/42")))).served.map
        (fun p => Header.Values p.2.Header (lit "X-Forwarded-Host")) = [[lit ""]] ∧
    (ServeHTTP sampleEnv
      (State.start ⟨[usersRoute]⟩ (sampleRequest (lit "GET") (lit "/api/users/42")))).served.map
        (fun p => Header.Get p.2.Header (lit "X-Forwarded-Host")) ≠ [lit "gateway.example.com"] := by
  decide

/-! ## The status responder (C8, C9) -/

theorem Sprintf_health (t : GoString) :
    Sprintf (lit "\x7b\"status\":\"healthy\",\"service\":\"api-gateway\",\"timestamp\":\"%s\"\x7d") [t]
      = lit "\x7b\"status\":\"healthy\",\"service\":\"api-gateway\",\"timestamp\":\"" ++
          (t ++ lit "\"\x7d") := by
  simp [Sprintf, lit]

theorem Sprintf_entry (route : Route) :
    Sprintf (lit "\n        \x7b\n            \"path\": \"%s\",\n            \"target\": \"%s\"\n        \x7d")
      [route.Path, route.Target] = routeEntry route := by
  simp [Sprintf, lit, routeEntry]

theorem handleRoot_health (env : Env) (s : State) (hp : s.r.URL.Path = lit "/health") :
    handleRoot env s =
      ⟨s.g, (s.w.SetHeader (lit "Content-Type") (lit "application/json")).Write
          (lit "\x7b\"status\":\"healthy\",\"service\":\"api-gateway\",\"timestamp\":\"" ++
            (env.now ++ lit "\"\x7d")),
        s.r, s.trace ++ [.handleRoot]⟩ := by
  simp only [handleRoot, State.emit, hp, if_true, Sprintf_health]

theorem intercalate_cons (sep e : GoString) (es : List GoString) :
    sep.intercalate (e :: es) = e ++ (es.map (fun x => sep ++ x)).flatten := by
  induction es generalizing e with
  | nil => simp [List.intercalate]
  | cons x xs ih =>
    have h := ih x
    simp only [List.intercalate] at h ⊢
    simp [List.intersperse, h]

theorem rootLoop_succ (i : Nat) (routes : List Route) (acc : GoString) :
    rootLoop (i + 1) routes acc =
      acc ++ (routes.map (fun rt => lit "," ++ routeEntry rt)).flatten := by
  induction routes generalizing i acc with
  | nil => simp [rootLoop]
  | cons rt rest ih =>
    simp only [rootLoop, Sprintf_entry, Nat.succ_pos, if_true, ih]
    simp [List.append_assoc]

theorem rootLoop_zero (routes : List Route) (acc : GoString) :
    rootLoop 0 routes acc = acc ++ (lit ",").intercalate (routes.map routeEntry) := by
  cases routes with
  | nil => simp [rootLoop, List.intercalate]
  | cons rt rest =>
    simp only [rootLoop, Sprintf_entry, Nat.lt_irrefl, if_false, Nat.zero_add, rootLoop_succ,
      List.map_cons, intercalate_cons, List.map_map]
    simp [List.append_assoc, Function.comp_def]

theorem handleRoot_root (env : Env) (s : State) (hp : s.r.URL.Path ≠ lit "/health") :
    handleRoot env s =
      ⟨s.g, (s.w.SetHeader (lit "Content-Type") (lit "application/json")).Write
          (rootHead ++ (lit ",").intercalate (s.g.routes.map routeEntry) ++ rootTail),
        s.r, s.trace ++ [.handleRoot]⟩ := by
  simp only [handleRoot, State.emit, hp, if_false, rootLoop_zero]
  rfl

theorem status_responder_writer (w : ResponseWriter) (body : GoString) (hw : w.sent = none) :
    ((w.SetHeader (lit "Content-Type") (lit "application/json")).Write body).status = some 200 ∧
    (∃ h, ((w.SetHeader (lit "Content-Type") (lit "application/json")).Write body).sent
        = some (200, h) ∧
      Header.Values h (lit "Content-Type") = [lit "application/json"]) ∧
    ((w.SetHeader (lit "Content-Type") (lit "application/json")).Write body).body
      = w.body ++ body := by
  refine ⟨?_, ⟨Header.Set w.header (lit "Content-Type") (lit "application/json"), ?_,
    Values_Set_self _ _ _⟩, ?_⟩ <;>
  simp [ResponseWriter.SetHeader, ResponseWriter.Write, ResponseWriter.WriteHeader,
    ResponseWriter.status, hw]

/-- C8: when no registered `Path` is a prefix of `/health`, a request for
`/health` whose method is not OPTIONS gets status 200, the header
`Content-Type: application/json`, and the body
`{"status":"healthy","service":"api-gateway","timestamp":"<t>"}` with `<t>` the
clock reading in RFC3339 (`env.now`); the body contains `"status":"healthy"`. -/
theorem ServeHTTP_health (env : Env) (g : Gateway) (r : Request)
    (hm : r.Method ≠ lit "OPTIONS")
    (hno : ∀ route ∈ g.routes, ¬ route.Path <+: lit "/health")
    (hp : r.URL.Path = lit "/health") :
    (ServeHTTP env (State.start g r)).w.status = some 200 ∧
    (∃ h, (ServeHTTP env (State.start g r)).w.sent = some (200, h) ∧
      Header.Values h (lit "Content-Type") = [lit "application/json"]) ∧
    (ServeHTTP env (State.start g r)).w.body =
      lit "\x7b\"status\":\"healthy\",\"service\":\"api-gateway\",\"timestamp\":\"" ++
        env.now ++ lit "\"\x7d" ∧
    lit "\"status\":\"healthy\"" <:+: (ServeHTTP env (State.start g r)).w.body := by
  have hno1 : ∀ route ∈ (State.start g r).g.routes,
      ¬ route.Path <+: (State.start g r).r.URL.Path := by
    intro route hr
    have : (State.start g r).r.URL.Path = lit "/health" := hp
    rw [this]
    exact hno route hr
  have h := ServeHTTP_nomatch env (State.start g r) hm hno1
  have hcond : (State.start g r).r.URL.Path = lit "/" ∨
      (State.start g r).r.URL.Path = lit "/health" := Or.inr hp
  rw [if_pos hcond] at h
  rw [h, handleRoot_health env _ hp]
  obtain ⟨h1, h2, h3⟩ := status_responder_writer (corsWriter (State.start g r).w)
    (lit "\x7b\"status\":\"healthy\",\"service\":\"api-gateway\",\"timestamp\":\"" ++
      (env.now ++ lit "\"\x7d")) (corsWriter_unsent _ rfl).1
  rw [(corsWriter_unsent _ rfl).2] at h3
  have hbody : (State.start g r).w.body ++
      (lit "\x7b\"status\":\"healthy\",\"service\":\"api-gateway\",\"timestamp\":\"" ++
        (env.now ++ lit "\"\x7d")) =
      lit "\x7b\"status\":\"healthy\",\"service\":\"api-gateway\",\"timestamp\":\"" ++
        env.now ++ lit "\"\x7d" := by
    simp [State.start, ResponseWriter.fresh]
  refine ⟨h1, h2, h3.trans hbody, ?_⟩
  show _ <:+: ((corsWriter (State.start g r).w).SetHeader _ _ |>.Write _).body
  rw [h3, hbody]
  refine ⟨lit "\x7b",
    lit ",\"service\":\"api-gateway\",\"timestamp\":\"" ++ env.now ++ lit "\"\x7d", ?_⟩
  simp [lit]

/-- An instance of `ServeHTTP_health`: `GET /health` against the route
`/api/users`, the clock reading `2024-05-01T12:00:00Z`. -/
theorem ServeHTTP_health_witness :
    (sampleRequest (lit "GET") (lit "/health")).Method ≠ lit "OPTIONS" ∧
    (∀ route ∈ (Gateway.mk [usersRoute]).routes, ¬ route.Path <+: lit "/health") ∧
    (ServeHTTP sampleEnv
      (State.start ⟨[usersRoute]⟩ (sampleRequest (lit "GET") (lit "/health")))).w.status
      = some 200 ∧
    (ServeHTTP sampleEnv
      (State.start ⟨[usersRoute]⟩ (sampleRequest (lit "GET") (lit "/health")))).w.body =
      lit "\x7b\"status\":\"healthy\",\"service\":\"api-gateway\",\"timestamp\":\"2024-05-01T12:00:00Z\"\x7d" :=
  ⟨by decide, by decide,
    (ServeHTTP_health sampleEnv ⟨[usersRoute]⟩ (sampleRequest (lit "GET") (lit "/health"))
      (by decide) (by decide) rfl).1,
    (ServeHTTP_health sampleEnv ⟨[usersRoute]⟩ (sampleRequest (lit "GET") (lit "/health"))
      (by decide) (by decide) rfl).2.2.1.trans (by decide)⟩

/-- C9: when no registered `Path` is a prefix of `/`, a request for `/` whose
method is not OPTIONS gets status 200, the header
`Content-Type: application/json`, and a body made of a fixed opening, the list
of route entries separated by commas, and a fixed closing; the list has one
entry per registered route, in table order, and the entry at index `i` holds
the `Path` and the `Target` of route `i` byte for byte. -/
theorem ServeHTTP_root_lists_routes (env : Env) (g : Gateway) (r : Request)
    (hm : r.Method ≠ lit "OPTIONS")
    (hno : ∀ route ∈ g.routes, ¬ route.Path <+: lit "/")
    (hp : r.URL.Path = lit "/") :
    (ServeHTTP env (State.start g r)).w.status = some 200 ∧
    (∃ h, (ServeHTTP env (State.start g r)).w.sent = some (200, h) ∧
      Header.Values h (lit "Content-Type") = [lit "application/json"]) ∧
    ∃ entries : List GoString,
      (ServeHTTP env (State.start g r)).w.body
        = rootHead ++ (lit ",").intercalate entries ++ rootTail ∧
      entries.length = g.routes.length ∧
      ∀ (i : Nat) (hi : i < g.routes.length) (hj : i < entries.length),
        entries[i] =
          lit "\n        \x7b\n            \"path\": \"" ++ g.routes[i].Path ++
            lit "\",\n            \"target\": \"" ++ g.routes[i].Target ++
            lit "\"\n        \x7d" := by
  have hno1 : ∀ route ∈ (State.start g r).g.routes,
      ¬ route.Path <+: (State.start g r).r.URL.Path := by
    intro route hr
    have : (State.start g r).r.URL.Path = lit "/" := hp
    rw [this]
    exact hno route hr
  have h := ServeHTTP_nomatch env (State.start g r) hm hno1
  have hcond : (State.start g r).r.URL.Path = lit "/" ∨
      (State.start g r).r.URL.Path = lit "/health" := Or.inl hp
  have hnh : (State.start g r).routing.r.URL.Path ≠ lit "/health" := by
    have : (State.start g r).routing.r.URL.Path = lit "/" := hp
    rw [this]
    decide
  rw [if_pos hcond] at h
  rw [h, handleRoot_root env _ hnh]
  obtain ⟨h1, h2, h3⟩ := status_responder_writer (corsWriter (State.start g r).w)
    (rootHead ++ (lit ",").intercalate ((State.start g r).routing.g.routes.map routeEntry)
      ++ rootTail) (corsWriter_unsent _ rfl).1
  rw [(corsWriter_unsent _ rfl).2] at h3
  refine ⟨h1, h2, g.routes.map routeEntry, ?_, by simp, ?_⟩
  · exact h3.trans (by simp [State.start, State.routing, ResponseWriter.fresh])
  · intro i hi hj
    simp [routeEntry, List.append_assoc]

set_option maxRecDepth 8000 in
/-- An instance of `ServeHTTP_root_lists_routes`: `GET /` against the routes
`/api` and `/api/users`; the body is evaluated in full. -/
theorem ServeHTTP_root_lists_routes_witness :
    (sampleRequest (lit "GET") (lit "/")).Method ≠ lit "OPTIONS" ∧
    (∀ route ∈ overlapGateway.routes, ¬ route.Path <+: lit "/") ∧
    (ServeHTTP sampleEnv
      (State.start overlapGateway (sampleRequest (lit "GET") (lit "/")))).w.status = some 200 ∧
    (ServeHTTP sampleEnv
      (State.start overlapGateway (sampleRequest (lit "GET") (lit "/")))).w.body =
      lit ("\x7b\n    \"service\": \"API Gateway\",\n    \"version\": \"1.0.0\",\n    \"routes\": [" ++
        "\n        \x7b\n            \"path\": \"/api\",\n            \"target\": \"http://a-service:8080\"\n        \x7d," ++
        "\n        \x7b\n            \"path\": \"/api/users\",\n            \"target\": \"http://b-service:8080\"\n        \x7d" ++
        "\n    ]\n\x7d") :=
  ⟨by decide, by decide,
    (ServeHTTP_root_lists_routes sampleEnv overlapGateway (sampleRequest (lit "GET") (lit "/"))
      (by decide) (by decide) rfl).1,
    by decide⟩

/-! ## Registration (C10) -/

/-- C10: `AddRoute` is total and appends exactly one route: the list afterwards
is the list before followed by `Route{path, target}`, whatever `path` and
`target` are (a route already present, empty strings and a target that does not
parse included); the length grows by one, the routes already registered keep
their index, and the new route is the last one. -/
theorem AddRoute_appends (g : Gateway) (path target : GoString) :
    (g.AddRoute path target).routes = g.routes ++ [⟨path, target⟩] ∧
    (g.AddRoute path target).routes.length = g.routes.length + 1 ∧
    (g.AddRoute path target).routes.take g.routes.length = g.routes ∧
    (∀ (i : Nat) (hi : i < g.routes.length),
      (g.AddRoute path target).routes[i]? = some g.routes[i]) ∧
    (g.AddRoute path target).routes.getLast? = some ⟨path, target⟩ ∧
    NewGateway.routes = [] := by
  refine ⟨rfl, ?_, ?_, ?_, ?_, rfl⟩
  · simp [Gateway.AddRoute]
  · simp [Gateway.AddRoute]
  · intro i hi
    simp [Gateway.AddRoute, List.getElem?_append_left hi]
  · simp [Gateway.AddRoute]

/-! ## The text of the route listing (C11) -/

/-- C11, amended: for every route table, the body `handleRoot` writes for a path
other than `/health` is an indented JSON document: the text
`{`, line feed, `    "service": "API Gateway",`, line feed,
`    "version": "1.0.0",`, line feed, `    "routes": [`, then one entry per route
in table order, the entries separated by single commas and each entry being a
line feed followed by the three lines `        {`,
`            "path": "<p>",`, `            "target": "<t>"` and the text
`        }`, then a line feed, `    ]`, a line feed and `}`. -/
theorem handleRoot_body (env : Env) (s : State) (hp : s.r.URL.Path ≠ lit "/health") :
    (handleRoot env s).w.body =
      s.w.body ++
        (lit "\x7b\n    \"service\": \"API Gateway\",\n    \"version\": \"1.0.0\",\n    \"routes\": [" ++
          (lit ",").intercalate (s.g.routes.map (fun route =>
            lit "\n        \x7b\n            \"path\": \"" ++ route.Path ++
              lit "\",\n            \"target\": \"" ++ route.Target ++
              lit "\"\n        \x7d")) ++
          lit "\n    ]\n\x7d") := by
  rw [handleRoot_root env s hp]
  have hentry : (fun route : Route =>
      lit "\n        \x7b\n            \"path\": \"" ++ route.Path ++
        lit "\",\n            \"target\": \"" ++ route.Target ++
        lit "\"\n        \x7d") = routeEntry := by
    funext route
    simp [routeEntry, List.append_assoc]
  rw [hentry]
  simp [ResponseWriter.Write, ResponseWriter.WriteHeader, ResponseWriter.SetHeader, rootHead,
    rootTail]
  cases s.w.sent <;> rfl

set_option maxRecDepth 8000 in
/-- An instance of `handleRoot_body`: the listing of the single route
`/api/users`, evaluated in full. -/
theorem handleRoot_body_witness :
    (State.start ⟨[usersRoute]⟩ (sampleRequest (lit "GET") (lit "/"))).r.URL.Path
      ≠ lit "/health" ∧
    (handleRoot sampleEnv
      (State.start ⟨[usersRoute]⟩ (sampleRequest (lit "GET") (lit "/")))).w.body =
      lit ("\x7b\n    \"service\": \"API Gateway\",\n    \"version\": \"1.0.0\",\n    \"routes\": [" ++
        "\n        \x7b\n            \"path\": \"/api/users\",\n            \"target\": \"http://users-service:8080\"\n        \x7d" ++
        "\n    ]\n\x7d") :=
  ⟨by decide,
    (handleRoot_body sampleEnv
      (State.start ⟨[usersRoute]⟩ (sampleRequest (lit "GET") (lit "/"))) (by decide)).trans
      (by decide)⟩

set_option maxRecDepth 8000 in
/-- C11 as stated fails: for the empty route table and for the table holding
the single route `/api/users`, the body `GET /` is answered with is not the
compact text `{"service":"API Gateway","version":"1.0.0","routes":[...]}`; the
code writes line feeds and indentation between the parts. -/
theorem root_body_not_compact :
    (ServeHTTP sampleEnv (State.start NewGateway (sampleRequest (lit "GET") (lit "/")))).w.body
      = lit "\x7b\n    \"service\": \"API Gateway\",\n    \"version\": \"1.0.0\",\n    \"routes\": [\n    ]\n\x7d" ∧
    (ServeHTTP sampleEnv (State.start NewGateway (sampleRequest (lit "GET") (lit "/")))).w.body
      ≠ lit "\x7b\"service\":\"API Gateway\",\"version\":\"1.0.0\",\"routes\":[" ++ lit "]\x7d" ∧
    (ServeHTTP sampleEnv
      (State.start ⟨[usersRoute]⟩ (sampleRequest (lit "GET") (lit "/")))).w.body
      ≠ lit "\x7b\"service\":\"API Gateway\",\"version\":\"1.0.0\",\"routes\":[" ++
          lit "\x7b\"path\":\"/api/users\",\"target\":\"http://users-service:8080\"\x7d" ++
          lit "]\x7d" := by
  decide

/-! ## Targets that do not parse, targets that are not absolute (C12) -/

theorem Error_sent (w : ResponseWriter) (msg : GoString) (code : Nat) (hw : w.sent = none) :
    ∃ h, (Error w msg code).sent = some (code, h) ∧
      Header.Values h (lit "Content-Type") = [lit "text/plain; charset=utf-8"] := by
  refine ⟨Header.Set (Header.Set (Header.Del w.header (lit "Content-Length"))
    (lit "Content-Type") (lit "text/plain; charset=utf-8"))
    (lit "X-Content-Type-Options") (lit "nosniff"), ?_, ?_⟩
  · simp [Error, ResponseWriter.SetHeader, ResponseWriter.WriteHeader, ResponseWriter.Write, hw]
  · rw [Values_Set_ne _ _ _ _ (by decide), Values_Set_self]

/-- C12, amended: for every route whose `Target` `url.Parse` refuses, a
non-OPTIONS request matched to that route (the first in table order whose
`Path` is a prefix of the request path) is answered with status 500, the
content type `text/plain; charset=utf-8` and the body `Invalid target URL`
followed by a line feed, and the handler stops there: after the log record the
only step is the call of `proxyRequest`, no request is handed to the proxy. -/
theorem ServeHTTP_refused_target_fails_before_handover (env : Env) (g : Gateway) (r : Request)
    (pre post : List Route) (route : Route)
    (hm : r.Method ≠ lit "OPTIONS")
    (hroutes : g.routes = pre ++ route :: post)
    (hpre : ∀ x ∈ pre, ¬ x.Path <+: r.URL.Path)
    (hroute : route.Path <+: r.URL.Path)
    (hparse : env.Parse route.Target = none) :
    (ServeHTTP env (State.start g r)).w.status = some 500 ∧
    (∃ h, (ServeHTTP env (State.start g r)).w.sent = some (500, h) ∧
      Header.Values h (lit "Content-Type") = [lit "text/plain; charset=utf-8"]) ∧
    (ServeHTTP env (State.start g r)).w.body = lit "Invalid target URL\n" ∧
    (ServeHTTP env (State.start g r)).trace = [.log (logLine r), .proxyRequest route] := by
  rw [ServeHTTP_match env (State.start g r) hm pre post route hroutes hpre hroute,
    proxyRequest_none env _ route hparse]
  have hw : (corsWriter (State.start g r).w).sent = none := (corsWriter_unsent _ rfl).1
  refine ⟨?_, ?_, ?_, ?_⟩
  · exact (Error_unsent _ _ _ hw).1
  · exact Error_sent _ _ _ hw
  · have h := (Error_unsent (corsWriter (State.start g r).w) (lit "Invalid target URL")
      StatusInternalServerError hw).2
    rw [(corsWriter_unsent _ rfl).2] at h
    have hl : lit "Invalid target URL" ++ lit "\n" = lit "Invalid target URL\n" := by decide
    rw [← hl]
    simpa [State.routing, State.start, ResponseWriter.fresh] using h
  · simp [State.routing, State.start]

/-- An instance of `ServeHTTP_refused_target_fails_before_handover`:
`GET /api/users/42` against a route whose target holds a control character. -/
theorem ServeHTTP_refused_target_fails_before_handover_witness :
    (sampleRequest (lit "GET") (lit "/api/users/42")).Method ≠ lit "OPTIONS" ∧
    brokenRoute.Path <+: (sampleRequest (lit "GET") (lit "/api/users/42")).URL.Path ∧
    sampleEnv.Parse brokenRoute.Target = none ∧
    (ServeHTTP sampleEnv
      (State.start ⟨[brokenRoute]⟩ (sampleRequest (lit "GET") (lit "/api/users/42")))).w.body
      = lit "Invalid target URL\n" ∧
    (ServeHTTP sampleEnv
      (State.start ⟨[brokenRoute]⟩ (sampleRequest (lit "GET") (lit "/api/users/42")))).trace
      = [.log (lit "GET /api/users/42 from 10.0.0.7:51234"), .proxyRequest brokenRoute] :=
  ⟨by decide, by decide, by decide,
    (ServeHTTP_refused_target_fails_before_handover sampleEnv ⟨[brokenRoute]⟩
      (sampleRequest (lit "GET") (lit "/api/users/42")) [] [] brokenRoute
      (by decide) rfl (by decide) (by decide) (by decide)).2.2.1,
    (ServeHTTP_refused_target_fails_before_handover sampleEnv ⟨[brokenRoute]⟩
      (sampleRequest (lit "GET") (lit "/api/users/42")) [] [] brokenRoute
      (by decide) rfl (by decide) (by decide) (by decide)).2.2.2.trans (by decide)⟩

/-- C12 as stated fails: `url.Parse` accepts the scheme-less string
`users-service` and the empty string as relative references (no scheme, no
host), so for `GET /api/users/42` against a route with either target no status
is written by the gateway, the body stays empty, and the request is handed to
the proxy built for a target without scheme and host. -/
theorem ServeHTTP_scheme_less_target_is_handed_over :
    sampleEnv.Parse schemelessRoute.Target = some ⟨lit "", lit "", lit "users-service"⟩ ∧
    sampleEnv.Parse emptyTargetRoute.Target = some ⟨lit "", lit "", lit ""⟩ ∧
    (ServeHTTP sampleEnv
      (State.start ⟨[schemelessRoute]⟩ (sampleRequest (lit "GET") (lit "/api/users/42")))).w.status
      ≠ some 500 ∧
    (ServeHTTP sampleEnv
      (State.start ⟨[schemelessRoute]⟩ (sampleRequest (lit "GET") (lit "/api/users/42")))).w.body
      = lit "" ∧
    (ServeHTTP sampleEnv
      (State.start ⟨[schemelessRoute]⟩ (sampleRequest (lit "GET") (lit "/api/users/42")))).served.map
        (fun p => (p.1, p.2.URL.Path))
      = [(⟨lit "", lit "", lit "users-service"⟩, lit "/42")] ∧
    (ServeHTTP sampleEnv
      (State.start ⟨[emptyTargetRoute]⟩ (sampleRequest (lit "GET") (lit "/api/users/42")))).w.status
      ≠ some 500 ∧
    (ServeHTTP sampleEnv
      (State.start ⟨[emptyTargetRoute]⟩ (sampleRequest (lit "GET") (lit "/api/users/42")))).served.map
        (fun p => (p.1, p.2.URL.Path))
      = [(⟨lit "", lit "", lit ""⟩, lit "/42")] := by
  decide

/-! ## Scheme and host of the outbound request (C13) -/

/-- C13: when the target of the route parses to `target`, the one request
`proxyRequest` hands to the proxy has the URL scheme of `target`, the URL host
of `target`, and `Host` equal to the host of `target`, whatever scheme and
host the inbound request has. -/
theorem proxyRequest_rewrites_scheme_and_host (env : Env) (s : State) (route : Route)
    (target : URL) (hparse : env.Parse route.Target = some target) :
    ∃ out : Request,
      (proxyRequest env s route).served = s.served ++ [(target, out)] ∧
      out.URL.Scheme = target.Scheme ∧
      out.URL.Host = target.Host ∧
      out.Host = target.Host := by
  obtain ⟨out, hout, -, -, h1, h2, h3, -, -⟩ := proxyRequest_some env s route target hparse
  refine ⟨out, ?_, h1, h2, h3⟩
  simp [hout, State.served, List.filterMap_append]

/-- An instance of `proxyRequest_rewrites_scheme_and_host`: a request that
arrives with scheme `https` and host `inbound.example` leaves for
`http://users-service:8080`. -/
theorem proxyRequest_rewrites_scheme_and_host_witness :
    sampleEnv.Parse usersRoute.Target = some ⟨lit "http", lit "users-service:8080", lit ""⟩ ∧
    (proxyRequest sampleEnv
      (State.start ⟨[usersRoute]⟩
        ⟨lit "GET", ⟨lit "https", lit "inbound.example", lit "/api/users/42"⟩, [],
          lit "inbound.example", lit "10.0.0.7:51234"⟩)
      usersRoute).served.map (fun p => (p.2.URL.Scheme, p.2.URL.Host, p.2.Host))
      = [(lit "http", lit "users-service:8080", lit "users-service:8080")] := by
  refine ⟨by decide, ?_⟩
  obtain ⟨out, h, h1, h2, h3⟩ := proxyRequest_rewrites_scheme_and_host sampleEnv
    (State.start ⟨[usersRoute]⟩
      ⟨lit "GET", ⟨lit "https", lit "inbound.example", lit "/api/users/42"⟩, [],
        lit "inbound.example", lit "10.0.0.7:51234"⟩)
    usersRoute ⟨lit "http", lit "users-service:8080", lit ""⟩ (by decide)
  rw [h]
  simp [State.served, State.start, h1, h2, h3]

/-! ## The log record (C14) -/

theorem trace_proxyRequest (env : Env) (s : State) (route : Route) :
    ∃ tail, (proxyRequest env s route).trace = s.trace ++ tail ∧
      ∀ e ∈ tail, ∀ line, e ≠ Event.log line := by
  cases h : env.Parse route.Target with
  | none =>
    refine ⟨[.proxyRequest route], by simp [proxyRequest_none env s route h], ?_⟩
    intro e he line
    simp at he
    simp [he]
  | some target =>
    obtain ⟨out, hout, -⟩ := proxyRequest_some env s route target h
    refine ⟨[.proxyRequest route, .proxyServe target out], by simp [hout], ?_⟩
    intro e he line
    simp at he
    rcases he with he | he <;> simp [he]

theorem routeLoop_some (env : Env) (s s1 : State) (routes : List Route)
    (h : routeLoop env s routes = some s1) :
    ∃ route ∈ routes, route.Path <+: s.r.URL.Path ∧ s1 = proxyRequest env s route := by
  induction routes with
  | nil => simp [routeLoop] at h
  | cons rt rest ih =>
    unfold routeLoop at h
    split at h
    · rename_i hp
      simp only [Option.some.injEq] at h
      exact ⟨rt, List.mem_cons_self _ _, (HasPrefix_iff _ _).1 hp, h.symm⟩
    · obtain ⟨route, hmem, hpre, heq⟩ := ih h
      exact ⟨route, List.mem_cons_of_mem _ hmem, hpre, heq⟩

theorem trace_ServeHTTP (env : Env) (g : Gateway) (r : Request)
    (hm : r.Method ≠ lit "OPTIONS") :
    ∃ tail, (ServeHTTP env (State.start g r)).trace = Event.log (logLine r) :: tail ∧
      ∀ e ∈ tail, ∀ line, e ≠ Event.log line := by
  rw [ServeHTTP_routing env (State.start g r) hm]
  cases hl : routeLoop env (State.start g r).routing (State.start g r).g.routes with
  | some s1 =>
    obtain ⟨route, -, -, rfl⟩ := routeLoop_some env _ s1 _ hl
    obtain ⟨tail, ht, hno⟩ := trace_proxyRequest env (State.start g r).routing route
    exact ⟨tail, by simpa [State.routing, State.start] using ht, hno⟩
  | none =>
    simp only
    split
    · refine ⟨[.handleRoot], by simp [trace_handleRoot, State.routing, State.start], ?_⟩
      intro e he line
      simp at he
      simp [he]
    · refine ⟨[.notFound], by simp [State.start], ?_⟩
      intro e he line
      simp at he
      simp [he]

/-- C14: a request whose method is not OPTIONS emits exactly one log record on
every path through `ServeHTTP`; its text is the method, a blank, the path as
received, ` from ` and the remote address; and it is the first step of the
handler, before the route loop: every call of `proxyRequest`, every hand-over
to the proxy, `handleRoot` and `http.NotFound` come after it. -/
theorem ServeHTTP_logs_once (env : Env) (g : Gateway) (r : Request)
    (hm : r.Method ≠ lit "OPTIONS") :
    (ServeHTTP env (State.start g r)).logged
      = [r.Method ++ lit " " ++ r.URL.Path ++ lit " from " ++ r.RemoteAddr] ∧
    ∃ tail, (ServeHTTP env (State.start g r)).trace
        = Event.log (r.Method ++ lit " " ++ r.URL.Path ++ lit " from " ++ r.RemoteAddr) :: tail ∧
      ∀ e ∈ tail, ∀ line, e ≠ Event.log line := by
  obtain ⟨tail, ht, hno⟩ := trace_ServeHTTP env g r hm
  have hline : r.Method ++ lit " " ++ r.URL.Path ++ lit " from " ++ r.RemoteAddr = logLine r := by
    simp [logLine, List.append_assoc]
  rw [hline]
  refine ⟨?_, tail, ht, hno⟩
  rw [State.logged, ht]
  have hnil : tail.filterMap (fun e => match e with
      | .log line => some line
      | _ => none) = [] := by
    rw [List.filterMap_eq_nil_iff]
    intro e he
    cases e with
    | log line => exact absurd rfl (hno _ he line)
    | _ => rfl
  simp [List.filterMap_cons, hnil]

/-- Instances of `ServeHTTP_logs_once`: a request that is proxied with its path
rewritten to `/42` is logged with the path `/api/users/42`; a request answered
404 is logged as well. -/
theorem ServeHTTP_logs_once_witness :
    (sampleRequest (lit "GET") (lit "/api/users/42")).Method ≠ lit "OPTIONS" ∧
    (ServeHTTP sampleEnv
      (State.start ⟨[usersRoute]⟩ (sampleRequest (lit "GET") (lit "/api/users/42")))).logged
      = [lit "GET /api/users/42 from 10.0.0.7:51234"] ∧
    (ServeHTTP sampleEnv
      (State.start ⟨[usersRoute]⟩ (sampleRequest (lit "POST") (lit "/nothing")))).logged
      = [lit "POST /nothing from 10.0.0.7:51234"] :=
  ⟨by decide,
    (ServeHTTP_logs_once sampleEnv ⟨[usersRoute]⟩
      (sampleRequest (lit "GET") (lit "/api/users/42")) (by decide)).1.trans (by decide),
    (ServeHTTP_logs_once sampleEnv ⟨[usersRoute]⟩
      (sampleRequest (lit "POST") (lit "/nothing")) (by decide)).1.trans (by decide)⟩

/-! ## The route table is read only (C15) -/

theorem g_proxyRequest (env : Env) (s : State) (route : Route) :
    (proxyRequest env s route).g = s.g := by
  cases h : env.Parse route.Target with
  | none => rw [proxyRequest_none env s route h]
  | some target =>
    obtain ⟨out, hout, -⟩ := proxyRequest_some env s route target h
    rw [hout]

theorem g_handleRoot (env : Env) (s : State) : (handleRoot env s).g = s.g := by
  simp only [handleRoot, State.emit]
  split <;> rfl

theorem g_ServeHTTP (env : Env) (s : State) : (ServeHTTP env s).g = s.g := by
  by_cases hm : s.r.Method = lit "OPTIONS"
  · rw [ServeHTTP_options env s hm]
  · rw [ServeHTTP_routing env s hm]
    cases hl : routeLoop env s.routing s.g.routes with
    | some s1 =>
      obtain ⟨route, -, -, rfl⟩ := routeLoop_some env _ s1 _ hl
      exact g_proxyRequest env s.routing route
    | none =>
      simp only
      split
      · exact g_handleRoot env s.routing
      · rfl

/-- C15: for every state of gateway, writer and request, and every request
method, the route list after `ServeHTTP` is the route list before it, element
for element and in order; the same holds for `proxyRequest` and `handleRoot`
called on their own; `AddRoute` does change the list. -/
theorem ServeHTTP_keeps_routes (env : Env) (s : State) :
    (ServeHTTP env s).g.routes = s.g.routes ∧
    (∀ route, (proxyRequest env s route).g.routes = s.g.routes) ∧
    (handleRoot env s).g.routes = s.g.routes ∧
    (∀ path target, (s.g.AddRoute path target).routes ≠ s.g.routes) := by
  refine ⟨by rw [g_ServeHTTP], fun route => by rw [g_proxyRequest], by rw [g_handleRoot], ?_⟩
  intro path target h
  have hlen := congrArg List.length h
  simp [Gateway.AddRoute] at hlen

/-! ## Routes before the built-in endpoints (C16) -/

theorem first_match_split (routes : List Route) (path : GoString)
    (h : ∃ route ∈ routes, route.Path <+: path) :
    ∃ pre route post, routes = pre ++ route :: post ∧
      (∀ x ∈ pre, ¬ x.Path <+: path) ∧ route.Path <+: path := by
  induction routes with
  | nil =>
    obtain ⟨route, hmem, -⟩ := h
    simp at hmem
  | cons rt rest ih =>
    by_cases hrt : rt.Path <+: path
    · exact ⟨[], rt, rest, rfl, by simp, hrt⟩
    · have hrest : ∃ route ∈ rest, route.Path <+: path := by
        obtain ⟨route, hmem, hp⟩ := h
        rcases List.mem_cons.1 hmem with heq | hmem1
        · exact absurd (heq ▸ hp) hrt
        · exact ⟨route, hmem1, hp⟩
      obtain ⟨pre, route, post, heq, hpre, hp⟩ := ih hrest
      refine ⟨rt :: pre, route, post, by simp [heq], ?_, hp⟩
      intro x hx
      rcases List.mem_cons.1 hx with hx1 | hx1
      · exact hx1 ▸ hrt
      · exact hpre x hx1

theorem ServeHTTP_matched_outcome (env : Env) (g : Gateway) (r : Request)
    (pre post : List Route) (route : Route)
    (hm : r.Method ≠ lit "OPTIONS")
    (hroutes : g.routes = pre ++ route :: post)
    (hpre : ∀ x ∈ pre, ¬ x.Path <+: r.URL.Path)
    (hroute : route.Path <+: r.URL.Path) :
    (ServeHTTP env (State.start g r)).selected = [route] ∧
    (ServeHTTP env (State.start g r)).served.map Prod.fst = (env.Parse route.Target).toList ∧
    Event.handleRoot ∉ (ServeHTTP env (State.start g r)).trace ∧
    Event.notFound ∉ (ServeHTTP env (State.start g r)).trace ∧
    (ServeHTTP env (State.start g r)).w.status ≠ some 404 := by
  have hserve := ServeHTTP_match env (State.start g r) hm pre post route hroutes hpre hroute
  refine ⟨?_, ?_, ?_, ?_, ?_⟩
  · rw [hserve, selected_proxyRequest]
    simp [State.selected, State.routing, State.start]
  · rw [hserve, served_proxyRequest]
    simp [State.served, State.routing, State.start]
  · rw [hserve]
    cases h : env.Parse route.Target with
    | none => simp [proxyRequest_none env _ route h, State.routing, State.start]
    | some target =>
      obtain ⟨out, hout, -⟩ := proxyRequest_some env (State.start g r).routing route target h
      rw [hout]
      simp [State.routing, State.start]
  · rw [hserve]
    cases h : env.Parse route.Target with
    | none => simp [proxyRequest_none env _ route h, State.routing, State.start]
    | some target =>
      obtain ⟨out, hout, -⟩ := proxyRequest_some env (State.start g r).routing route target h
      rw [hout]
      simp [State.routing, State.start]
  · rw [hserve]
    cases h : env.Parse route.Target with
    | none =>
      rw [proxyRequest_none env _ route h]
      have := (Error_unsent (corsWriter (State.start g r).w) (lit "Invalid target URL")
        StatusInternalServerError (corsWriter_unsent _ rfl).1).1
      simp only [State.routing]
      rw [this]
      simp [StatusInternalServerError]
    | some target =>
      obtain ⟨out, hout, -⟩ := proxyRequest_some env (State.start g r).routing route target h
      rw [hout]
      have hw : (corsWriter (State.start g r).w).sent = none := (corsWriter_unsent _ rfl).1
      simp [State.routing, ResponseWriter.status, hw]

/-- C16: for a request whose method is not OPTIONS and any request path, `/`
and `/health` included: when some registered `Path` is a prefix of the path,
`proxyRequest` is called with the first such route (and the request is handed
to the proxy of that route when its target parses), `handleRoot` and
`http.NotFound` are not called and the gateway does not answer 404; and when
the table holds a route with the empty `Path`, this is the case for every
request path. -/
theorem ServeHTTP_routes_before_builtin (env : Env) (g : Gateway) (r : Request)
    (hm : r.Method ≠ lit "OPTIONS") :
    (∀ (i : Nat) (hi : i < g.routes.length),
        g.routes[i].Path <+: r.URL.Path →
        (∀ (j : Nat) (hj : j < g.routes.length), j < i → ¬ g.routes[j].Path <+: r.URL.Path) →
        (ServeHTTP env (State.start g r)).selected = [g.routes[i]] ∧
        (ServeHTTP env (State.start g r)).served.map Prod.fst
          = (env.Parse g.routes[i].Target).toList ∧
        Event.handleRoot ∉ (ServeHTTP env (State.start g r)).trace ∧
        Event.notFound ∉ (ServeHTTP env (State.start g r)).trace ∧
        (ServeHTTP env (State.start g r)).w.status ≠ some 404) ∧
    ((∃ route ∈ g.routes, route.Path = []) →
      ∃ route ∈ g.routes, route.Path <+: r.URL.Path ∧
        (ServeHTTP env (State.start g r)).selected = [route] ∧
        (ServeHTTP env (State.start g r)).served.map Prod.fst
          = (env.Parse route.Target).toList ∧
        Event.handleRoot ∉ (ServeHTTP env (State.start g r)).trace ∧
        Event.notFound ∉ (ServeHTTP env (State.start g r)).trace ∧
        (ServeHTTP env (State.start g r)).w.status ≠ some 404) := by
  constructor
  · intro i hi hmatch hfirst
    have hpre : ∀ x ∈ g.routes.take i, ¬ x.Path <+: r.URL.Path := by
      intro x hx
      obtain ⟨j, hj, rfl⟩ := List.mem_iff_getElem.1 hx
      have hji : j < i := by
        have := hj
        simp only [List.length_take] at this
        omega
      rw [List.getElem_take]
      exact hfirst j (by omega) hji
    exact ServeHTTP_matched_outcome env g r (g.routes.take i) (g.routes.drop (i + 1))
      g.routes[i] hm (routes_split_at g.routes i hi) hpre hmatch
  · rintro ⟨route0, hmem0, hempty⟩
    have hex : ∃ route ∈ g.routes, route.Path <+: r.URL.Path :=
      ⟨route0, hmem0, by rw [hempty]; exact List.nil_prefix⟩
    obtain ⟨pre, route, post, hroutes, hpre, hroute⟩ := first_match_split g.routes r.URL.Path hex
    refine ⟨route, by simp [hroutes], hroute, ?_⟩
    exact ServeHTTP_matched_outcome env g r pre post route hm hroutes hpre hroute

/-- Instances of `ServeHTTP_routes_before_builtin`: with the routes `/api/users`
and the empty path, `GET /health` is routed to the route with the empty path
and handed to its proxy, `handleRoot` is not called; the same table routes
`GET /` and `GET /nothing` in the same way. -/
theorem ServeHTTP_routes_before_builtin_witness :
    (sampleRequest (lit "GET") (lit "/health")).Method ≠ lit "OPTIONS" ∧
    (ServeHTTP sampleEnv
      (State.start catchAllGateway (sampleRequest (lit "GET") (lit "/health")))).selected
      = [⟨lit "", lit "http://fallback:8080"⟩] ∧
    Event.handleRoot ∉ (ServeHTTP sampleEnv
      (State.start catchAllGateway (sampleRequest (lit "GET") (lit "/health")))).trace ∧
    (ServeHTTP sampleEnv
      (State.start catchAllGateway (sampleRequest (lit "GET") (lit "/health")))).served.map
        (fun p => (p.1.Host, p.2.URL.Path)) = [(lit "fallback:8080", lit "/health")] ∧
    (ServeHTTP sampleEnv
      (State.start catchAllGateway (sampleRequest (lit "GET") (lit "/")))).trace.length = 3 ∧
    (ServeHTTP sampleEnv
      (State.start catchAllGateway (sampleRequest (lit "GET") (lit "/nothing")))).w.status
      = none := by
  have h := (ServeHTTP_routes_before_builtin sampleEnv catchAllGateway
    (sampleRequest (lit "GET") (lit "/health")) (by decide)).1 1 (by decide) (by decide)
    (fun j _ hj => by
      have hj0 : j = 0 := by omega
      subst hj0
      simp only [catchAllGateway, NewGateway, Gateway.AddRoute, List.nil_append,
        List.cons_append, List.getElem_cons_zero]
      decide)
  exact ⟨by decide, h.1, h.2.2.1, by decide, by decide, by decide⟩

/-! ## Start-up configuration (C17) -/

theorem getEnv_eq (environ : Environ) (key defaultValue : GoString) :
    getEnv environ key defaultValue =
      match environ key with
      | some value => if value ≠ [] then value else defaultValue
      | none => defaultValue := by
  unfold getEnv Getenv
  cases environ key with
  | none => simp
  | some value => simp

theorem getEnv_ne_nil (environ : Environ) (key defaultValue : GoString)
    (hd : defaultValue ≠ []) : getEnv environ key defaultValue ≠ [] := by
  rw [getEnv_eq]
  cases environ key with
  | none => exact hd
  | some value =>
    by_cases hv : value = []
    · simp [hv, hd]
    · simp [hv]

/-- C17: `getEnv` returns the value of the variable when it is set and not
empty, and the default when the variable is unset or set to the empty string,
so its result is empty only when the default is empty.  Hence the route table
`main` starts the server with is, for every environment, the three routes
`/api/users`, `/api/posts`, `/api/auth` in this order, with targets that are
not empty (the value of `USERS_SERVICE`, `POSTS_SERVICE`, `AUTH_SERVICE` or the
default `http://<name>-service:8080`), and the port is `8080` when `PORT` is
unset or empty. -/
theorem getEnv_and_startup (environ : Environ) (key defaultValue : GoString) :
    (∀ value, environ key = some value → value ≠ [] →
      getEnv environ key defaultValue = value) ∧
    (environ key = none → getEnv environ key defaultValue = defaultValue) ∧
    (environ key = some [] → getEnv environ key defaultValue = defaultValue) ∧
    (getEnv environ key defaultValue = [] → defaultValue = []) ∧
    (main environ).server.Handler.routes =
      [⟨lit "/api/users", getEnv environ (lit "USERS_SERVICE") (lit "http://users-service:8080")⟩,
       ⟨lit "/api/posts", getEnv environ (lit "POSTS_SERVICE") (lit "http://posts-service:8080")⟩,
       ⟨lit "/api/auth", getEnv environ (lit "AUTH_SERVICE") (lit "http://auth-service:8080")⟩] ∧
    (main environ).server.Handler.routes.map Route.Path
      = [lit "/api/users", lit "/api/posts", lit "/api/auth"] ∧
    (∀ route ∈ (main environ).server.Handler.routes, route.Target ≠ []) ∧
    ((environ (lit "PORT") = none ∨ environ (lit "PORT") = some []) →
      (main environ).port = lit "8080" ∧ (main environ).server.Addr = lit ":8080") ∧
    (∀ value, environ (lit "PORT") = some value → value ≠ [] →
      (main environ).port = value) := by
  have hroutes : (main environ).server.Handler.routes =
      [⟨lit "/api/users", getEnv environ (lit "USERS_SERVICE") (lit "http://users-service:8080")⟩,
       ⟨lit "/api/posts", getEnv environ (lit "POSTS_SERVICE") (lit "http://posts-service:8080")⟩,
       ⟨lit "/api/auth", getEnv environ (lit "AUTH_SERVICE") (lit "http://auth-service:8080")⟩] := by
    simp [main, NewGateway, Gateway.AddRoute]
  have hport : (main environ).port = getEnv environ (lit "PORT") (lit "8080") := rfl
  have haddr : (main environ).server.Addr = lit ":" ++ getEnv environ (lit "PORT") (lit "8080") :=
    rfl
  refine ⟨?_, ?_, ?_, ?_, hroutes, ?_, ?_, ?_, ?_⟩
  · intro value hv hne
    rw [getEnv_eq, hv]
    simp [hne]
  · intro hv
    rw [getEnv_eq, hv]
  · intro hv
    rw [getEnv_eq, hv]
    simp
  · intro h
    by_contra hd
    exact getEnv_ne_nil environ key defaultValue hd h
  · rw [hroutes]
    rfl
  · rw [hroutes]
    intro route hmem
    simp only [List.mem_cons, List.mem_singleton, List.not_mem_nil, or_false] at hmem
    rcases hmem with rfl | rfl | rfl
    · exact getEnv_ne_nil _ _ _ (by decide)
    · exact getEnv_ne_nil _ _ _ (by decide)
    · exact getEnv_ne_nil _ _ _ (by decide)
  · intro hp
    have hg : getEnv environ (lit "PORT") (lit "8080") = lit "8080" := by
      rw [getEnv_eq]
      rcases hp with hp | hp <;> simp [hp]
    rw [hport, haddr, hg]
    exact ⟨rfl, by decide⟩
  · intro value hv hne
    rw [hport, getEnv_eq, hv]
    simp [hne]

set_option maxRecDepth 8000 in
/-- Instances of `getEnv_and_startup`: with `PORT` set to the empty string the
port is the default `8080`; with `USERS_SERVICE` set the first target is its
value; with nothing set `main` prints the three default routes. -/
theorem getEnv_and_startup_witness :
    sampleEnviron (lit "PORT") = some [] ∧
    getEnv sampleEnviron (lit "PORT") (lit "8080") = lit "8080" ∧
    (main sampleEnviron).server.Addr = lit ":8080" ∧
    (main sampleEnviron).server.Handler.routes =
      [⟨lit "/api/users", lit "http://10.0.0.5:9000"⟩,
       ⟨lit "/api/posts", lit "http://posts-service:8080"⟩,
       ⟨lit "/api/auth", lit "http://auth-service:8080"⟩] ∧
    (main emptyEnviron).stdout =
      lit ("API Gateway starting on port 8080\nRoutes configured:\n" ++
        "  /api/users -> http://users-service:8080\n" ++
        "  /api/posts -> http://posts-service:8080\n" ++
        "  /api/auth -> http://auth-service:8080\n") :=
  ⟨by decide,
    (getEnv_and_startup sampleEnviron (lit "PORT") (lit "8080")).2.2.1 (by decide),
    ((getEnv_and_startup sampleEnviron (lit "PORT") (lit "8080")).2.2.2.2.2.2.2.1
      (Or.inr (by decide))).2,
    (getEnv_and_startup sampleEnviron (lit "PORT") (lit "8080")).2.2.2.2.1.trans (by decide),
    by decide⟩

end ApiGateway
